import Mathlib

/-!
# Verification of the otterbot knowledge-base ingestion and retrieval pipeline

This file gives a shallow embedding of the core of the otterbot repository:

* `chunk_text` and `ingest_game_sources` (src/app/datasources/ingest.py),
* `get_embeddings`, `FAISSDS.create` and `FAISSDS.search_request`
  (src/app/datasources/faiss_ds.py),
* the games/sources database operations (src/bot/db/sqlite_db.py, the
  variant whose API matches the calls made by src/app/tools.py),
* `get_or_create_game`, `ResearchTool._save_source`, `ResearchTool.research`
  and both variants of `QueryTool.answer` (src/app/tools.py and
  src/bot/tools.py).

Conventions of the embedding:

* Python strings are `String`; Python `str.split()` (no argument),
  `str.replace`, `str.lower`, `str.strip` truthiness, `str.endswith` and
  `" ".join` are modelled character-faithfully below.
* Python `range(0, n, step)` is modelled by `pyStarts` (positive step);
  a zero step raises `ValueError`, a negative step gives the empty range,
  and the two degenerate cases are handled at the call sites that can
  reach them.
* numpy float32 vectors are modelled as `List Int`: the claims under
  study are about list lengths, positional correspondence and order, and
  none depends on floating-point rounding.
* External services (OpenAI embeddings and chat, HTTP fetch, YouTube
  captions, filesystem reads in the crawler) are parameters of the
  functions that call them; a fallible call is a function into `Option`
  or `Except`.
* The `meta_data.jsonl` file is modelled as the list of its decoded
  lines: line `i` of the file is the JSON dump of entry `i`, so the file
  is represented by the list of entries in write order.
* User-facing reply strings are modelled by the `Reply` inductive: each
  constructor is one of the distinct formatted messages built by the
  tools, applied to the data interpolated into the message.
-/

namespace Otter

/-! ## Python string primitives -/

/-- Python `str.split()` with no separator: split on runs of whitespace,
discarding empty pieces.  The accumulator holds the current word reversed. -/
def pySplitAux : List Char → List Char → List String
  | [], acc => if acc = [] then [] else [⟨acc.reverse⟩]
  | c :: rest, acc =>
    if c.isWhitespace then
      if acc = [] then pySplitAux rest [] else ⟨acc.reverse⟩ :: pySplitAux rest []
    else pySplitAux rest (c :: acc)

/-- Python `text.split()`. -/
def pySplit (s : String) : List String := pySplitAux s.data []

/-- Python `" ".join(l)`. -/
def joinWords : List String → String
  | [] => ""
  | [w] => w
  | w :: ws => w ++ " " ++ joinWords ws

/-- Python truthiness of `s.strip()`: true iff `s` contains a
non-whitespace character. -/
def pyStripTruthy (s : String) : Bool := s.data.any (fun c => !c.isWhitespace)

/-- Python `range(0, n, step)` for a positive `step`: the list
`[0, step, 2*step, ...]` of all multiples of `step` below `n`, that is
`k * step` for `k < ceil(n / step)`. -/
def pyStarts (n step : Nat) : List Nat :=
  (List.range ((n + step - 1) / step)).map (fun k => k * step)

/-! ## Chunker (src/app/datasources/ingest.py, `chunk_text`)

```python
def chunk_text(text, chunk_size=1000, overlap=200):
    words = text.split()
    for i in range(0, len(words), chunk_size - overlap):
        chunk_words = words[i : i + chunk_size]
        chunk = " ".join(chunk_words)
        if chunk.strip():
            yield chunk
```

The generator is modelled as the finite list of chunks it yields.  The
range step is `chunk_size - overlap` over Python ints: a zero step makes
`range` raise `ValueError` (at the first iteration of the generator,
before any chunk is yielded), a negative step makes the range empty. -/

/-- `chunk_text` from src/app/datasources/ingest.py. -/
def chunk_text (text : String) (chunk_size : Nat := 1000) (overlap : Nat := 200) :
    Except String (List String) :=
  let words := pySplit text
  if chunk_size = overlap then
    .error "ValueError: range() arg 3 must not be zero"
  else if chunk_size < overlap then
    .ok []
  else
    .ok (((pyStarts words.length (chunk_size - overlap)).map
      (fun i => joinWords ((words.drop i).take chunk_size))).filter pyStripTruthy)

/-! ## Vector index builder / store (src/app/datasources/faiss_ds.py)

`get_embedding` / `get_embeddings` call the external OpenAI embedding
service; the service is a parameter (`List String → Except Unit (List
(List Int))`), failing calls modelled by `.error`.  numpy float32 vectors
are `List Int` (the claims are about counts, positions and order, not
rounding).  The two per-topic artifacts written by `FAISSDS.create` are
modelled by `TopicFS`: `meta` is the decoded line list of
`meta_data.jsonl` (line `i` = JSON dump of entry `i`), `index` is the
vector list of `faiss.index` in add order. -/

/-- Python `text.replace("\n", " ")` as applied to every embedding input. -/
def stripNL (s : String) : String :=
  ⟨s.data.map (fun c => if c = '\n' then ' ' else c)⟩

/-- One section dictionary as built by `ingest_game_sources` and written as
one line of `meta_data.jsonl`. -/
structure Section where
  id : Nat
  search_key : String
  content : String
  file_url : String
deriving DecidableEq, Repr

/-- The batch loop of `get_embeddings`: one service call per batch start
index, extending the accumulated embedding list; an exception from the
service escapes the loop (discarding the local accumulator). -/
def embedBatches (service : List String → Except Unit (List (List Int)))
    (texts : List String) (bs : Nat) : List Nat → Except Unit (List (List Int))
  | [] => .ok []
  | i :: rest => do
    let batch ← service (((texts.drop i).take bs).map stripNL)
    let tail ← embedBatches service texts bs rest
    pure (batch ++ tail)

/-- `get_embeddings` from src/app/datasources/faiss_ds.py: batches of
`batch_size` texts, newlines replaced by spaces, service output extended
in batch order. -/
def get_embeddings (service : List String → Except Unit (List (List Int)))
    (texts : List String) (batch_size : Nat := 1000) :
    Except Unit (List (List Int)) :=
  embedBatches service texts batch_size (pyStarts texts.length batch_size)

/-- The two per-topic persisted artifacts of a FAISSDS index directory. -/
structure TopicFS where
  meta : Option (List Section)
  index : Option (List (List Int))
deriving DecidableEq, Repr

/-- `FAISSDS.create`: materialize the section iterator, take the
`search_key` of every entry, write all entries to `meta_data.jsonl`, THEN
call the embedding service on the keys, and only then write
`faiss.index`.  A service exception propagates out after the metadata
write, leaving the index file untouched. -/
def FAISSDS_create (service : List String → Except Unit (List (List Int)))
    (sections : List Section) (fs : TopicFS) : Except Unit Unit × TopicFS :=
  let keys := sections.map (fun s => s.search_key)
  let fs1 : TopicFS := { fs with meta := some sections }
  match get_embeddings service keys 1000 with
  | .error e => (.error e, fs1)
  | .ok embs => (.ok (), { fs1 with index := some embs })

/-- Inner product of a query vector with a stored vector. -/
def dot (a b : List Int) : Int := ((a.zip b).map (fun p => p.1 * p.2)).sum

/-- Score-descending order on (score, id) pairs, modelling the order in
which `faiss.IndexFlatIP.search` returns its hits. -/
def scoreGE (a b : Int × Int) : Prop := b.1 ≤ a.1

instance : DecidableRel scoreGE := fun a b => inferInstanceAs (Decidable (b.1 ≤ a.1))

instance : IsTotal (Int × Int) scoreGE := ⟨fun a b => le_total b.1 a.1⟩

instance : IsTrans (Int × Int) scoreGE := ⟨fun _ _ _ hab hbc => le_trans hbc hab⟩

/-- `faiss.IndexFlatIP` search over the vectors added in order:
`search(q, n)` returns `n` slots, the stored (inner-product score, vector
id) pairs sorted score-descending first, then `-1`-id padding slots when
fewer than `n` vectors are stored. -/
def faissSearch (stored : List (List Int)) (q : List Int) (n : Nat) :
    List (Int × Int) :=
  let scored := (List.range stored.length).map
    (fun i => (dot q (stored.getD i []), (i : Int)))
  let top := (List.insertionSort scoreGE scored).take n
  top ++ List.replicate (n - top.length) (0, -1)

/-- One hit dictionary returned by `search_request`. -/
structure Hit where
  id : Nat
  search_key : String
  content : String
  file_url : String
  score : Int
deriving DecidableEq, Repr

/-- The hit built in the `search_request` loop body, including the
`file_url` processing (`file_loc.split("/")`, first two parts). -/
def mkHit (d : Section) (score : Int) : Hit :=
  let parts := d.file_url.split (fun c => c = '/')
  let ds_name := parts.getD 0 ""
  let filename := parts.getD 1 ""
  { id := d.id, search_key := d.search_key, content := d.content,
    file_url := "/datasource/" ++ ds_name ++ "/" ++ filename, score := score }

/-- The body of the `search_request` loop for one (score, idx) slot:
`-1` slots (not enough docs returned) are silently skipped, other slots
build a hit from `self.documents[idx]`. -/
def hitOf (docs : List Section) (p : Int × Int) : Option Hit :=
  if p.2 = -1 then none
  else (docs[p.2.toNat]?).map (fun d => mkHit d p.1)

/-- `FAISSDS.search_request`: search the index for `topk + skip` slots,
enumerate them skipping the first `skip` positions (`if i < skip:
continue`), and process the rest with the loop body.  `docs`/`stored` are
the loaded `meta_data.jsonl` lines and index vectors; the query embedding
comes from the external embedding service and is a parameter. -/
def search_request (docs : List Section) (stored : List (List Int))
    (query_embedding : List Int) (topk : Nat) (skip : Nat := 0) : List Hit :=
  ((faissSearch stored query_embedding (topk + skip)).drop skip).filterMap
    (hitOf docs)

/-! ## Document store (games / game_sources tables)

Modelled from src/bot/db/sqlite_db.py, the DB variant whose API matches
every call made by src/app/tools.py (`create_game` returning the new row
id, `get_game_by_id`, `update_game_status` by id,
`list_sources_for_game`).  Timestamp columns are not modelled
(`update_game_timestamps` touches only them). -/

/-- SQLite `lower()`: ASCII case folding. -/
def sqlLower (s : String) : String :=
  ⟨s.data.map (fun c =>
    if 'A' ≤ c ∧ c ≤ 'Z' then Char.ofNat (c.toNat + 32) else c)⟩

/-- One row of the `games` table (timestamps omitted). -/
structure GameRow where
  id : Nat
  name : String
  description : Option String
  status : String
  store_dir : String
deriving DecidableEq, Repr

/-- One row of the `game_sources` table (timestamps omitted). -/
structure SourceRow where
  id : Nat
  game_id : Nat
  source_type : String
  url : String
  title : String
  local_path : Option String
deriving DecidableEq, Repr

/-- Database state: rows in insertion (rowid) order plus the autoincrement
counters. -/
structure DBState where
  games : List GameRow
  sources : List SourceRow
  nextGameId : Nat
  nextSourceId : Nat
deriving DecidableEq, Repr

/-- `SELECT * FROM games WHERE lower(name) = lower(?)` (first row). -/
def get_game_by_name (st : DBState) (name : String) : Option GameRow :=
  st.games.find? (fun g => sqlLower g.name == sqlLower name)

/-- `SELECT * FROM games WHERE id = ?` (first row). -/
def get_game_by_id (st : DBState) (gid : Nat) : Option GameRow :=
  st.games.find? (fun g => g.id == gid)

/-- `INSERT INTO games ...` returning `cursor.lastrowid`. -/
def create_game (st : DBState) (name store_dir status : String) : Nat × DBState :=
  (st.nextGameId,
    { st with
      games := st.games ++ [⟨st.nextGameId, name, none, status, store_dir⟩],
      nextGameId := st.nextGameId + 1 })

/-- `UPDATE games SET status = ? WHERE id = ?`. -/
def update_game_status (st : DBState) (gid : Nat) (status : String) : DBState :=
  { st with games := st.games.map (fun g => if g.id = gid then { g with status := status } else g) }

/-- The raw `UPDATE games SET store_dir = ? WHERE id = ?` issued inside
`get_or_create_game`. -/
def update_game_store_dir (st : DBState) (gid : Nat) (sd : String) : DBState :=
  { st with games := st.games.map (fun g => if g.id = gid then { g with store_dir := sd } else g) }

/-- `UPDATE games SET description = ? WHERE id = ?`. -/
def update_game_description (st : DBState) (gid : Nat) (d : String) : DBState :=
  { st with games := st.games.map (fun g => if g.id = gid then { g with description := some d } else g) }

/-- `INSERT INTO game_sources ...`. -/
def add_game_source (st : DBState) (gid : Nat) (stype url title : String)
    (lp : Option String) : DBState :=
  { st with
    sources := st.sources ++ [⟨st.nextSourceId, gid, stype, url, title, lp⟩],
    nextSourceId := st.nextSourceId + 1 }

/-- `SELECT * FROM game_sources WHERE game_id = ? ORDER BY id` (insertion
order coincides with id order since ids autoincrement). -/
def list_sources_for_game (st : DBState) (gid : Nat) : List SourceRow :=
  st.sources.filter (fun s => s.game_id == gid)

/-! ## Research and query tools (src/app/tools.py, src/bot/tools.py)

External collaborators (network, LLM, regex URL matching, urllib path
helpers, filesystem side effects) are the fields of `Env`.  File writes
performed by `_save_source` (raw bytes, extracted text) are not part of
the claims under study and are not tracked; the database rows and the
`local_path` strings they record are. -/

/-- A successful (status 200) HTTP response as used by `_save_source`. -/
structure FetchResp where
  content_type : String
  body : String
deriving DecidableEq, Repr

/-- External collaborators of the research / query workflows. -/
structure Env where
  /-- `extract_youtube_id` (pure stdlib-regex URL matcher). -/
  ytId : String → Option String
  /-- `get_youtube_captions` (network; `none` = no transcript). -/
  ytCaptions : String → Option String
  /-- `http_get`: `none` models a non-200 status or a network error (the
  function catches `RequestException` and returns `None`). -/
  httpGet : String → Option FetchResp
  /-- `llm.web_research_links(name)`: discovered (title, url) pairs. -/
  webLinks : String → List (String × String)
  /-- `bgg_canonical_url(name)` (network; `none` on failure). -/
  bgg : String → Option String
  /-- `urllib.parse.quote`. -/
  urlQuote : String → String
  /-- `os.path.basename(url)`. -/
  basename : String → String
  /-- `os.path.basename(urllib.parse.urlparse(url).path)`. -/
  urlPathBasename : String → String
  /-- Outcome of the description-synthesis step for a game name: `some d`
  when a description was generated and stored, `none` when the step
  produced nothing or raised (failures are swallowed). -/
  describe : String → Option String
  /-- `llm.web_search_answer(game_name, question, context)`. -/
  webAnswer : String → String → String → String
  /-- `llm.chat` on the composed QA prompt, as a function of the
  retrieved context. -/
  llmChat : String → String
  /-- `extract_game_name(user_text, available_games)` (LLM + fuzzy
  match; `none` on failure or no confident extraction). -/
  extractGame : String → List String → Option String
  /-- `db.find_recent_game_for_chat(chat_id)`, returning the game name
  (chat-log scan; the chat_log table itself is not modelled). -/
  recentGameName : Nat → Option String
  /-- `get_embedding(search_query)` for the query text. -/
  queryEmbedding : String → List Int
  /-- `FAISSDS(index_name=str(game_id))` loading: the persisted
  (documents, vectors) for a topic, `none` when loading raises. -/
  indexOf : Nat → Option (List Section × List (List Int))

/-- Python `s.endswith(suffix)`. -/
def pyEndsWith (s suf : String) : Bool := suf.data.isSuffixOf s.data

/-- Splitting a character list on a (nonempty) separator sublist,
leftmost non-overlapping, keeping empty pieces; fuel-structural so that
concrete inputs evaluate. -/
def splitOnFuel (sep : List Char) : Nat → List Char → List Char →
    List (List Char)
  | 0, l, acc => [acc.reverse ++ l]
  | _ + 1, [], acc => [acc.reverse]
  | fuel + 1, c :: rest, acc =>
    if sep.isPrefixOf (c :: rest) then
      acc.reverse :: splitOnFuel sep fuel ((c :: rest).drop sep.length) []
    else splitOnFuel sep fuel rest (c :: acc)

/-- Python `s.split(sep)` for a nonempty separator (keeps empty pieces). -/
def pySplitOn (s sep : String) : List String :=
  (splitOnFuel sep.data (s.data.length + 1) s.data []).map (fun cs => ⟨cs⟩)

/-- Python `sub in s` (substring containment, nonempty `sub`). -/
def pyContains (s sub : String) : Bool := (pySplitOn s sub).length != 1

/-- Python `s.replace(old, new)` (all occurrences, nonempty `old`). -/
def pyReplace (s old new : String) : String :=
  String.intercalate new (pySplitOn s old)

/-- Python `s.strip()`. -/
def pyStrip (s : String) : String :=
  ⟨((s.data.dropWhile Char.isWhitespace).reverse.dropWhile
    Char.isWhitespace).reverse⟩

/-- The distinct user-facing replies built by the tools, each constructor
applied to the data interpolated into the corresponding message string. -/
inductive Reply where
  /-- research: "I already have research on <name>...". -/
  | alreadyHave (name : String)
  /-- research: "I've created a knowledge base for <name> with
  <downloaded> saved files and <linked> links ..." (link built from the
  game id). -/
  | createdSummary (name : String) (downloaded linked : Nat) (gid : Nat)
  /-- answer: "I'm not sure which game you mean..." listing known games. -/
  | unclearGame (known : List String)
  /-- app answer: "I don't have information about <name> yet...". -/
  | unknownGame (name : String)
  /-- app answer: "<name> isn't ready yet (status: <status>)...". -/
  | notReady (name status : String)
  /-- app answer: "I have <name> in my database but couldn't find
  relevant information...". -/
  | noContext (name : String) (gid : Nat)
  /-- app answer: LLM answer text plus the citation block. -/
  | answered (text : String) (cites : List (String × String)) (gid : Nat)
  /-- bot answer: web-search answer text, optional internal-citation
  block, and whether the "I haven't done thorough research yet"
  disclaimer was appended. -/
  | webAnswered (text : String) (cites : Option (List (String × String)))
      (disclaimer : Bool)
deriving DecidableEq, Repr

/-- `GAMES_DIR` (with `STORAGE_DIR` defaulted). -/
def GAMES_DIR : String := "storage/games"

/-- `get_or_create_game` from src/app/tools.py: look up by name
(case-insensitive); on a miss insert a row with placeholder store_dir
"temp", create the real directory keyed by the new id, update the row,
and re-read it.  The final `none` arm is unreachable (the row with the
fresh id was just inserted); its value mirrors the row just written. -/
def get_or_create_game (st : DBState) (game_name : String) : GameRow × DBState :=
  match get_game_by_name st game_name with
  | some g => (g, st)
  | none =>
    let c := create_game st game_name "temp" "created"
    let gid := c.1
    let sd := GAMES_DIR ++ "/" ++ toString gid
    let st2 := update_game_store_dir c.2 gid sd
    match get_game_by_id st2 gid with
    | some g => (g, st2)
    | none => (⟨gid, game_name, none, "created", sd⟩, st2)

/-- `ResearchTool._save_source`: download if YouTube/PDF/HTML, otherwise
record as a link; returns the (downloaded, linked) increments.  Exactly
one `game_sources` row is inserted per call. -/
def save_source (env : Env) (st : DBState) (game : GameRow)
    (title url : String) : (Nat × Nat) × DBState :=
  match env.ytId url with
  | some vid =>
    match env.ytCaptions vid with
    | some _caps =>
      let path := game.store_dir ++ "/youtube_" ++ vid ++ ".txt"
      ((1, 0), add_game_source st game.id "video" url title (some path))
    | none => ((0, 1), add_game_source st game.id "video" url title none)
  | none =>
    match env.httpGet url with
    | none => ((0, 1), add_game_source st game.id "link" url title none)
    | some r =>
      let ct := sqlLower r.content_type
      if pyContains ct "application/pdf" || pyEndsWith (sqlLower url) ".pdf" then
        let fname0 := env.urlQuote (env.basename url)
        let fname1 := if fname0 = "" then "doc.pdf" else fname0
        let fname := if pyEndsWith fname1 ".pdf" then fname1 else fname1 ++ ".pdf"
        ((1, 0), add_game_source st game.id "pdf" url title
          (some (game.store_dir ++ "/" ++ fname)))
      else
        let hname0 := env.urlPathBasename url
        let hname1 := if hname0 = "" then "page.html" else hname0
        let hname := if pyEndsWith hname1 ".html" then hname1 else hname1 ++ ".html"
        ((1, 0), add_game_source st game.id "html" url title
          (some (game.store_dir ++ "/" ++ hname)))

/-- The seed list of `research`: Wikipedia seed, optional BoardGameGeek
seed, then the LLM-discovered sources. -/
def mkSeeds (env : Env) (gname : String) : List (String × String) :=
  let seeds0 := [(gname ++ " (Wikipedia)",
    "https://en.wikipedia.org/wiki/" ++
      env.urlQuote (pyReplace (pyStrip gname) " " "_"))]
  let seeds1 := match env.bgg gname with
    | some b => seeds0 ++ [(gname ++ " (BoardGameGeek)", b)]
    | none => seeds0
  seeds1 ++ env.webLinks gname

/-- The dedup loop of `research`: keep first-seen order, drop URLs already
in `seen`. -/
def dedupByUrl : List (String × String) → List String → List (String × String)
  | [], _ => []
  | (t, u) :: rest, seen =>
    if seen.contains u then dedupByUrl rest seen
    else (t, u) :: dedupByUrl rest (u :: seen)

/-- The deduplicated source batch fetched by one research run. -/
def uniqSources (env : Env) (gname : String) : List (String × String) :=
  dedupByUrl (mkSeeds env gname) []

/-- The per-source loop of `research`, accumulating the
(downloaded, linked) counters. -/
def saveAll (env : Env) (game : GameRow) :
    List (String × String) → DBState → (Nat × Nat) × DBState
  | [], st => ((0, 0), st)
  | (title, url) :: rest, st =>
    let r1 := save_source env st game title url
    let r2 := saveAll env game rest r1.2
    ((r1.1.1 + r2.1.1, r1.1.2 + r2.1.2), r2.2)

/-- Result of one `ResearchTool.research` call: the reply, the URLs the
run fetched (empty when the call short-circuits), and the resulting
database state. -/
structure ResearchOut where
  reply : Reply
  fetched : List String
  st : DBState
deriving DecidableEq, Repr

/-- `ResearchTool.research` from src/app/tools.py.  The FAISS-ingest step
is wrapped in try/except with failures logged and swallowed and changes
no games/sources rows (it writes index files only); the description step
is likewise non-fatal and modelled by its outcome `env.describe`;
`update_game_timestamps` touches only unmodelled timestamp columns. -/
def research (env : Env) (st0 : DBState) (game_name : String) : ResearchOut :=
  let gs := get_or_create_game st0 game_name
  let game := gs.1
  let st1 := gs.2
  if game.status = "ready" ∨ game.status = "researched" then
    ⟨.alreadyHave game.name, [], st1⟩
  else
    let st2 := update_game_status st1 game.id "researching"
    let uniq := uniqSources env game.name
    let res := saveAll env game uniq st2
    let st4 := match env.describe game.name with
      | some d => update_game_description res.2 game.id d
      | none => res.2
    let st5 := update_game_status st4 game.id "ready"
    ⟨.createdSummary game.name res.1.1 res.1.2 game.id,
      uniq.map (fun tu => tu.2), st5⟩

/-- `QueryTool._search_faiss`: load the topic index, run
`search_request(query, topk=top_k)`, build the context text and the
citation list; any exception (missing/corrupt index) yields `("", [])`.
The `(score: %.2f)` float interpolation in the context lines is
abbreviated; only emptiness of the context matters to the callers. -/
def searchFaiss (env : Env) (gid : Nat) (query : String) (top_k : Nat) :
    String × List (String × String) :=
  match env.indexOf gid with
  | none => ("", [])
  | some di =>
    let hits := search_request di.1 di.2 (env.queryEmbedding query) top_k 0
    (String.intercalate "\n\n"
        (hits.map (fun h => "[Source: " ++ h.search_key ++ "]\n" ++ h.content)),
      hits.map (fun h => (h.search_key, h.file_url)))

/-- The citation dedup loop shared by both answer variants
(first-seen-order dedup of `citations[:5]`). -/
def dedupPairs : List (String × String) → List (String × String) →
    List (String × String)
  | [], _ => []
  | p :: rest, seen =>
    if seen.contains p then dedupPairs rest seen
    else p :: dedupPairs rest (p :: seen)

/-- `QueryTool.answer` from src/app/tools.py.  Returns the reply and
whether the vector index store was consulted (`_search_faiss` invoked).
Game-name resolution: explicit argument, else LLM extraction, else the
chat-log fallback. -/
def answerApp (env : Env) (st : DBState) (chat_id : Nat) (user_text : String)
    (explicit_game : Option String) : Reply × Bool :=
  let available := st.games.map (fun g => g.name)
  let gname? := match explicit_game with
    | some g => some g
    | none =>
      match env.extractGame user_text available with
      | some g => some g
      | none => env.recentGameName chat_id
  match gname? with
  | none => (.unclearGame available, false)
  | some gname =>
    match get_game_by_name st gname with
    | none => (.unknownGame gname, false)
    | some game =>
      if game.status ≠ "ready" then
        (.notReady game.name game.status, false)
      else
        let cc := searchFaiss env game.id user_text 5
        if cc.1 = "" then (.noContext game.name game.id, true)
        else (.answered (env.llmChat (cc.1.take 20000))
          (dedupPairs (cc.2.take 5) []) game.id, true)

/-- `QueryTool.answer` from src/bot/tools.py.  When the game exists with
status `ready` the FAISS index is searched and the web-search answer is
supplemented with internal citations; otherwise no vector search happens
and the web-search answer gets the "I haven't done thorough research"
disclaimer. -/
def answerBot (env : Env) (st : DBState) (chat_id : Nat) (user_text : String)
    (explicit_game : Option String) : Reply × Bool :=
  let available := st.games.map (fun g => g.name)
  let gname? := match explicit_game with
    | some g => some g
    | none =>
      match env.extractGame user_text available with
      | some g => some g
      | none => env.recentGameName chat_id
  match gname? with
  | none => (.unclearGame available, false)
  | some gname =>
    match get_game_by_name st gname with
    | some gd =>
      if gd.status = "ready" then
        let cc := searchFaiss env gd.id user_text 5
        let ans := env.webAnswer gname user_text (cc.1.take 10000)
        if cc.2 ≠ [] then
          (.webAnswered ans (some (dedupPairs (cc.2.take 5) [])) false, true)
        else (.webAnswered ans none false, true)
      else (.webAnswered (env.webAnswer gname user_text "") none true, false)
    | none => (.webAnswered (env.webAnswer gname user_text "") none true, false)

/-! ## Ingestion (src/app/datasources/ingest.py, `ingest_game_sources`) -/

/-- Filesystem collaborators of `ingest_game_sources`. -/
structure FSEnv where
  /-- `os.path.exists`. -/
  fileExists : String → Bool
  /-- Reading a text file (`errors="ignore"`); `none` models the
  open/read raising (caught, logged, source skipped). -/
  readFile : String → Option String
  /-- `os.path.basename`. -/
  basename : String → String

/-- The text content read for one source row, `none` when the source is
skipped: no local path, file missing, a read exception, or a PDF
(`PDF parsing not implemented`, skipped with a warning). -/
def sourceText (env : FSEnv) (src : SourceRow) : Option String :=
  match src.local_path with
  | none => none
  | some lp =>
    if env.fileExists lp then
      if pyEndsWith lp ".html" then
        if env.fileExists (pyReplace lp ".html" ".txt") then
          env.readFile (pyReplace lp ".html" ".txt")
        else some ""
      else if pyEndsWith lp ".txt" then env.readFile lp
      else if pyEndsWith lp ".pdf" then none
      else some ""
    else none

/-- The sections appended for the chunks of one source, with the running
`section_id` counter. -/
def sectionsOfChunks (title furl : String) : Nat → List String → List Section
  | _, [] => []
  | sid, c :: cs =>
    ⟨sid, title ++ " - chunk " ++ toString sid, c, furl⟩ ::
      sectionsOfChunks title furl (sid + 1) cs

/-- The sections produced for one source at counter `sid`: blank text
(strip falsy) or a skipped read yields none, otherwise one section per
`chunk_text(text, 1000, 200)` chunk (the `.error` arm is unreachable
since 1000 ≠ 200). -/
def sourceSections (env : FSEnv) (gid : Nat) (src : SourceRow) (sid : Nat) :
    List Section :=
  match sourceText env src with
  | none => []
  | some tc =>
    if pyStripTruthy tc then
      match chunk_text tc 1000 200 with
      | .ok cs =>
        sectionsOfChunks src.title
          (toString gid ++ "/" ++ env.basename (src.local_path.getD "")) sid cs
      | .error _ => []
    else []

/-- The per-source loop of `ingest_game_sources`; the running
`section_id` counter advances by the number of sections the source
emitted. -/
def buildSections (env : FSEnv) (gid : Nat) :
    List SourceRow → Nat → List Section
  | [], _ => []
  | src :: rest, sid =>
    sourceSections env gid src sid ++
      buildSections env gid rest (sid + (sourceSections env gid src sid).length)

/-- `ingest_game_sources`: raises ValueError for an unknown game id,
otherwise builds the section list over the game's sources and (when
nonempty) hands it to `FAISSDS.create`; returns `str(game_id)`.  The
returned section list is what the index is built over. -/
def ingest_game_sources (env : FSEnv) (st : DBState) (game_id : Nat) :
    Except String (List Section × String) :=
  match get_game_by_id st game_id with
  | none => .error ("Game with ID " ++ toString game_id ++ " not found")
  | some _ =>
    .ok (buildSections env game_id (list_sources_for_game st game_id) 0,
      toString game_id)

/-! ## Concrete instances used by counterexamples and witnesses -/

/-- A trivial environment: no YouTube matches, every GET fails, no
discovered links, no BGG result, identity-ish path helpers. -/
def env0 : Env where
  ytId := fun _ => none
  ytCaptions := fun _ => none
  httpGet := fun _ => none
  webLinks := fun _ => []
  bgg := fun _ => none
  urlQuote := fun s => s
  basename := fun p => (pySplitOn p "/").getLastD ""
  urlPathBasename := fun p => (pySplitOn p "/").getLastD ""
  describe := fun _ => none
  webAnswer := fun g q c => "web answer about " ++ g ++ " / " ++ q ++ " / " ++ c
  llmChat := fun c => "answer from " ++ c
  extractGame := fun _ _ => none
  recentGameName := fun _ => none
  queryEmbedding := fun _ => [1, 0]
  indexOf := fun _ => none

/-- A database holding one game, "Catan", mid-research. -/
def stResearching : DBState where
  games := [⟨1, "Catan", none, "researching", "storage/games/1"⟩]
  sources := []
  nextGameId := 2
  nextSourceId := 1

/-- Filesystem for the ingest scenario: a materialized PDF and a
materialized HTML page with its extracted text sibling. -/
def fsC9 : FSEnv where
  fileExists := fun p =>
    p == "storage/games/1/catan.pdf" || p == "storage/games/1/catan.html" ||
      p == "storage/games/1/catan.txt"
  readFile := fun p =>
    if p == "storage/games/1/catan.txt" then some "Catan is a trade game"
    else none
  basename := fun p => (pySplitOn p "/").getLastD ""

/-- The ingest scenario state: game 1 with a materialized PDF source and a
materialized HTML source. -/
def stC9 : DBState where
  games := [⟨1, "Catan", none, "researching", "storage/games/1"⟩]
  sources :=
    [⟨1, 1, "pdf", "http://x/catan.pdf", "Catan Rules PDF",
      some "storage/games/1/catan.pdf"⟩,
     ⟨2, 1, "html", "http://x/catan.html", "Catan Wiki",
      some "storage/games/1/catan.html"⟩]
  nextGameId := 2
  nextSourceId := 3

/-- A PDF source row used to witness the PDF-skip behavior. -/
def pdfSrc : SourceRow :=
  ⟨1, 1, "pdf", "http://x/catan.pdf", "Catan Rules PDF",
    some "storage/games/1/catan.pdf"⟩

/-- A text source row used to witness the materialized-text behavior. -/
def txtSrc : SourceRow :=
  ⟨9, 1, "txt", "http://x/catan.txt", "Catan Notes",
    some "storage/games/1/catan.txt"⟩

/-! ### Facts about the Python primitives -/

theorem pySplitAux_words_sound (l : List Char) :
    ∀ acc, (∀ c ∈ acc, ¬ c.isWhitespace) →
      ∀ w ∈ pySplitAux l acc, w.data ≠ [] ∧ ∀ c ∈ w.data, ¬ c.isWhitespace := by
  induction l with
  | nil =>
    intro acc hacc w hw
    simp only [pySplitAux] at hw
    split at hw
    · simp at hw
    · rename_i hne
      simp only [List.mem_singleton] at hw
      subst hw
      refine ⟨by simpa using hne, ?_⟩
      intro c hc
      exact hacc c (by simpa using hc)
  | cons c rest ih =>
    intro acc hacc w hw
    simp only [pySplitAux] at hw
    split at hw
    · split at hw
      · exact ih [] (by simp) w hw
      · rename_i hne
        rcases List.mem_cons.mp hw with h | h
        · subst h
          refine ⟨by simpa using hne, ?_⟩
          intro d hd
          exact hacc d (by simpa using hd)
        · exact ih [] (by simp) w h
    · rename_i hcw
      refine ih (c :: acc) ?_ w hw
      intro d hd
      rcases List.mem_cons.mp hd with h | h
      · subst h; simpa using hcw
      · exact hacc d h

/-- Every word produced by `pySplit` is nonempty and whitespace-free. -/
theorem pySplit_words_sound (s : String) :
    ∀ w ∈ pySplit s, w.data ≠ [] ∧ ∀ c ∈ w.data, ¬ c.isWhitespace :=
  pySplitAux_words_sound s.data [] (by simp)

theorem pySplitAux_all_whitespace (l : List Char) (hl : ∀ c ∈ l, c.isWhitespace) :
    pySplitAux l [] = [] := by
  induction l with
  | nil => simp [pySplitAux]
  | cons c rest ih =>
    have hc : c.isWhitespace := hl c (by simp)
    simp only [pySplitAux, hc, if_true, if_pos rfl]
    exact ih (fun d hd => hl d (List.mem_cons_of_mem _ hd))

/-- A whitespace-only (in particular empty) string splits into no words. -/
theorem pySplit_all_whitespace (s : String) (h : ∀ c ∈ s.data, c.isWhitespace) :
    pySplit s = [] :=
  pySplitAux_all_whitespace s.data h

theorem joinWords_data_mem (w : String) (ws : List String) (c : Char)
    (hc : c ∈ w.data) : c ∈ (joinWords (w :: ws)).data := by
  cases ws with
  | nil => simpa [joinWords] using hc
  | cons w2 ws2 =>
    show c ∈ (w ++ " " ++ joinWords (w2 :: ws2)).data
    rw [String.data_append, String.data_append]
    exact List.mem_append_left _ (List.mem_append_left _ hc)

/-- Joining a window whose first word is nonempty and whitespace-free gives
a chunk that survives the `if chunk.strip():` test. -/
theorem pyStripTruthy_joinWords (w : String) (ws : List String)
    (hw : w.data ≠ []) (hws : ∀ c ∈ w.data, ¬ c.isWhitespace) :
    pyStripTruthy (joinWords (w :: ws)) = true := by
  rcases List.exists_mem_of_ne_nil w.data hw with ⟨c, hc⟩
  have hmem : c ∈ (joinWords (w :: ws)).data := joinWords_data_mem w ws c hc
  simp only [pyStripTruthy, List.any_eq_true]
  exact ⟨c, hmem, by simpa using hws c hc⟩

theorem pyStarts_mem_lt {n step i : Nat} (hstep : 0 < step)
    (hi : i ∈ pyStarts n step) : i < n := by
  simp only [pyStarts, List.mem_map, List.mem_range] at hi
  obtain ⟨k, hk, rfl⟩ := hi
  have h1 : k + 1 ≤ (n + step - 1) / step := hk
  have h2 : (k + 1) * step ≤ ((n + step - 1) / step) * step :=
    Nat.mul_le_mul_right _ h1
  have h3 : ((n + step - 1) / step) * step ≤ n + step - 1 := Nat.div_mul_le_self _ _
  have h4 := le_trans h2 h3
  rcases Nat.eq_zero_or_pos n with hn | hn
  · subst hn
    rw [Nat.div_eq_of_lt (by omega : 0 + step - 1 < step)] at h1
    omega
  · have h5 : (k + 1) * step = k * step + step := by ring
    omega

theorem pyStarts_get (n step k : Nat) (hk : k < ((n + step - 1) / step)) :
    (pyStarts n step)[k]? = some (k * step) := by
  simp [pyStarts, hk]

theorem pyStarts_length (n step : Nat) :
    (pyStarts n step).length = (n + step - 1) / step := by
  simp [pyStarts]

/-- For `j < n` the window starting at `(j / step) * step` covers `j`. -/
theorem pyStarts_cover {n step j : Nat} (hstep : 0 < step) (hj : j < n) :
    j / step < (pyStarts n step).length ∧
      (j / step) * step ≤ j ∧ j < (j / step) * step + step := by
  refine ⟨?_, Nat.div_mul_le_self _ _, ?_⟩
  · rw [pyStarts_length]
    have h1 : j + step ≤ n + step - 1 := by omega
    have h2 : (j + step) / step ≤ (n + step - 1) / step := Nat.div_le_div_right h1
    have h3 : (j + step) / step = j / step + 1 := Nat.add_div_right _ hstep
    omega
  · have h1 := Nat.div_add_mod j step
    have h2 := Nat.mod_lt j hstep
    have h3 : (j / step) * step = step * (j / step) := Nat.mul_comm _ _
    omega

theorem pyStarts_zero (step : Nat) (hstep : 0 < step) : pyStarts 0 step = [] := by
  have h0 : (0 + step - 1) / step = 0 := Nat.div_eq_of_lt (by omega)
  unfold pyStarts
  rw [h0]
  simp

/-- Every chunk emitted by the window map survives the `if chunk.strip():`
filter, because its first word comes from `pySplit` and is nonempty and
whitespace-free. -/
theorem chunk_windows_filter_id (text : String) (cs step : Nat)
    (hcs : 0 < cs) (hstep : 0 < step) :
    ((pyStarts (pySplit text).length step).map
        (fun i => joinWords (((pySplit text).drop i).take cs))).filter pyStripTruthy =
      (pyStarts (pySplit text).length step).map
        (fun i => joinWords (((pySplit text).drop i).take cs)) := by
  apply List.filter_eq_self.mpr
  intro x hx
  simp only [List.mem_map] at hx
  obtain ⟨i, hi, rfl⟩ := hx
  have hilt : i < (pySplit text).length := pyStarts_mem_lt hstep hi
  have hdrop : ((pySplit text).drop i) ≠ [] := by
    apply List.ne_nil_of_length_pos
    rw [List.length_drop]
    omega
  obtain ⟨w, tail, hw⟩ := List.exists_cons_of_ne_nil hdrop
  have hwmem : w ∈ pySplit text := by
    have : w ∈ (pySplit text).drop i := by rw [hw]; exact List.mem_cons_self _ _
    exact List.drop_subset _ _ this
  obtain ⟨hwne, hwws⟩ := pySplit_words_sound text w hwmem
  obtain ⟨cs', rfl⟩ := Nat.exists_eq_succ_of_ne_zero (Nat.pos_iff_ne_zero.mp hcs)
  rw [hw, List.take_succ_cons]
  exact pyStripTruthy_joinWords w _ hwne hwws

/-- C5: for `overlap < window`, `chunk_text` splits the input on whitespace
into words and emits the windows `words[k*(window-overlap) : k*(window-overlap)+window]`:
window `k` starts exactly at word `k * (window - overlap)` (so starts advance
by `window - overlap` words per step), no window exceeds `window` words,
every word index is covered by some window, and a whitespace-only (in
particular empty) input yields zero chunks. -/
theorem chunk_text_window_spec (text : String) (cs ol : Nat) (h : ol < cs) :
    ∃ chunks, chunk_text text cs ol = .ok chunks ∧
      chunks.length = ((pySplit text).length + (cs - ol) - 1) / (cs - ol) ∧
      (∀ k, k < chunks.length →
        chunks[k]? = some (joinWords (((pySplit text).drop (k * (cs - ol))).take cs)) ∧
        (((pySplit text).drop (k * (cs - ol))).take cs).length ≤ cs) ∧
      (∀ j, j < (pySplit text).length → ∃ k, k < chunks.length ∧
        k * (cs - ol) ≤ j ∧ j < k * (cs - ol) + cs) ∧
      ((∀ c ∈ text.data, c.isWhitespace) → chunks = []) := by
  have hstep : 0 < cs - ol := by omega
  have hcs : 0 < cs := by omega
  refine ⟨(pyStarts (pySplit text).length (cs - ol)).map
      (fun i => joinWords (((pySplit text).drop i).take cs)), ?_, ?_, ?_, ?_, ?_⟩
  · show chunk_text text cs ol = _
    rw [chunk_text]
    rw [if_neg (by omega), if_neg (by omega)]
    rw [chunk_windows_filter_id text cs (cs - ol) hcs hstep]
  · rw [List.length_map, pyStarts_length]
  · intro k hk
    rw [List.length_map, pyStarts_length] at hk
    constructor
    · rw [List.getElem?_map, pyStarts_get _ _ _ hk]
      rfl
    · exact List.length_take_le _ _
  · intro j hj
    obtain ⟨hk, hle, hlt⟩ := pyStarts_cover hstep hj
    refine ⟨j / (cs - ol), ?_, hle, ?_⟩
    · rwa [List.length_map]
    · have : cs - ol ≤ cs := Nat.sub_le _ _
      omega
  · intro hws
    rw [pySplit_all_whitespace text hws]
    simp [pyStarts_zero _ hstep]

/-- C5 witness: the spec example `chunk("a b c d e f", window=4, overlap=2)`. -/
theorem chunk_text_window_spec_witness :
    2 < 4 ∧ (∃ chunks, chunk_text "a b c d e f" 4 2 = .ok chunks ∧
      chunks.length = ((pySplit "a b c d e f").length + (4 - 2) - 1) / (4 - 2) ∧
      (∀ k, k < chunks.length →
        chunks[k]? = some (joinWords (((pySplit "a b c d e f").drop (k * (4 - 2))).take 4)) ∧
        (((pySplit "a b c d e f").drop (k * (4 - 2))).take 4).length ≤ 4) ∧
      (∀ j, j < (pySplit "a b c d e f").length → ∃ k, k < chunks.length ∧
        k * (4 - 2) ≤ j ∧ j < k * (4 - 2) + 4) ∧
      ((∀ c ∈ "a b c d e f".data, c.isWhitespace) → chunks = [])) :=
  ⟨by decide, chunk_text_window_spec "a b c d e f" 4 2 (by decide)⟩

/-- C6 counterexample: with `overlap = 5 > 4 = window` on the non-empty
input `"a b c"`, `chunk_text` does not reject the call: the Python range
step is negative, so `range(0, len(words), -1)` is empty and the generator
silently succeeds, yielding zero chunks on non-empty input. -/
theorem chunk_text_overlap_gt_window_not_rejected :
    pySplit "a b c" ≠ [] ∧ chunk_text "a b c" 4 5 = .ok [] := by
  constructor
  · decide
  · rfl

/-- C6 amended: for `overlap ≥ window`, `chunk_text` never loops and never
produces a chunk, but only the boundary case `overlap = window` is rejected
(`range` raises `ValueError` on a zero step, before any chunk is yielded);
for `overlap > window` the negative-step range is empty and the call
silently succeeds with zero chunks. -/
theorem chunk_text_degenerate_spec (text : String) (cs ol : Nat) (h : cs ≤ ol) :
    chunk_text text cs ol =
      (if cs = ol then .error "ValueError: range() arg 3 must not be zero"
       else .ok []) := by
  by_cases hc : cs = ol
  · simp [chunk_text, hc]
  · have hlt : cs < ol := lt_of_le_of_ne h hc
    simp [chunk_text, hc, hlt]

/-- C6 amended witness: the boundary case `window = overlap = 2`. -/
theorem chunk_text_degenerate_spec_witness :
    2 ≤ 2 ∧ chunk_text "x y" 2 2 =
      (if 2 = 2 then .error "ValueError: range() arg 3 must not be zero"
       else .ok []) :=
  ⟨by decide, chunk_text_degenerate_spec "x y" 2 2 (by decide)⟩

/-! ### Embedding batching and FAISSDS.create -/

theorem pyStarts_pos_unfold (n step : Nat) (hn : 0 < n) (hstep : 0 < step) :
    pyStarts n step = 0 :: (pyStarts (n - step) step).map (fun i => i + step) := by
  have hceil : (n + step - 1) / step = (n - step + step - 1) / step + 1 := by
    rcases le_or_lt step n with hle | hlt
    · have h1 : n - step + step - 1 = n - 1 := by omega
      have h2 : n + step - 1 = (n - 1) + step := by omega
      rw [h1, h2, Nat.add_div_right _ hstep]
    · have h1 : n - step = 0 := by omega
      have h2 : (0 + step - 1) / step = 0 := Nat.div_eq_of_lt (by omega)
      rw [h1, h2]
      exact Nat.div_eq_of_lt_le (by omega) (by omega)
  rw [pyStarts, pyStarts, hceil, List.range_succ_eq_map]
  simp only [List.map_cons, Nat.zero_mul, List.map_map]
  congr 1
  apply List.map_congr_left
  intro a _
  show a.succ * step = a * step + step
  rw [Nat.succ_mul]

/-- The batch slices `texts[i : i + bs]` for `i ∈ range(0, len, bs)`
concatenate back to the whole input. -/
theorem slices_flatten (bs : Nat) (hbs : 0 < bs) :
    ∀ n (texts : List String), texts.length ≤ n →
      ((pyStarts texts.length bs).map (fun i => (texts.drop i).take bs)).flatten
        = texts := by
  intro n
  induction n with
  | zero =>
    intro texts hle
    have h0 : texts = [] := List.eq_nil_of_length_eq_zero (by omega)
    subst h0
    rw [List.length_nil, pyStarts_zero _ hbs]
    rfl
  | succ n ih =>
    intro texts hle
    by_cases hnil : texts = []
    · subst hnil
      rw [List.length_nil, pyStarts_zero _ hbs]
      rfl
    · have hpos : 0 < texts.length := List.length_pos.mpr hnil
      rw [pyStarts_pos_unfold _ _ hpos hbs, List.map_cons, List.map_map,
        List.flatten_cons]
      have hlen : (texts.drop bs).length = texts.length - bs :=
        List.length_drop _ _
      have htail : (pyStarts (texts.length - bs) bs).map
          ((fun i => (texts.drop i).take bs) ∘ (fun i => i + bs)) =
          (pyStarts ((texts.drop bs).length) bs).map
            (fun i => ((texts.drop bs).drop i).take bs) := by
        rw [hlen]
        apply List.map_congr_left
        intro a _
        show (texts.drop (a + bs)).take bs = _
        rw [List.drop_drop, Nat.add_comm bs a]
      rw [htail, ih (texts.drop bs) (by omega), List.drop_zero,
        List.take_append_drop]

theorem embedBatches_ok (f : String → List Int)
    (service : List String → Except Unit (List (List Int)))
    (hsvc : ∀ ts, service ts = .ok (ts.map f)) (texts : List String) (bs : Nat) :
    ∀ l : List Nat, embedBatches service texts bs l =
      .ok ((l.map (fun i =>
        ((texts.drop i).take bs).map (fun t => f (stripNL t)))).flatten) := by
  intro l
  induction l with
  | nil => rfl
  | cons i rest ih =>
    simp only [embedBatches, hsvc, ih, List.map_cons, List.flatten_cons,
      List.map_map]
    rfl

/-- When the embedding service returns one vector per input in input order
(`service = map f`), `get_embeddings` is exactly the per-text embedding of
the newline-stripped inputs, in input order. -/
theorem get_embeddings_ok (f : String → List Int)
    (service : List String → Except Unit (List (List Int)))
    (hsvc : ∀ ts, service ts = .ok (ts.map f))
    (texts : List String) (bs : Nat) (hbs : 0 < bs) :
    get_embeddings service texts bs = .ok (texts.map (fun t => f (stripNL t))) := by
  rw [get_embeddings, embedBatches_ok f service hsvc]
  congr 1
  have hsplit : (pyStarts texts.length bs).map
      (fun i => ((texts.drop i).take bs).map (fun t => f (stripNL t))) =
      ((pyStarts texts.length bs).map (fun i => (texts.drop i).take bs)).map
        (List.map (fun t => f (stripNL t))) := by
    rw [List.map_map]
    rfl
  rw [hsplit, ← List.map_flatten, slices_flatten bs hbs texts.length texts le_rfl]

/-- C1: when the embedding service returns one vector per input in input
order, `FAISSDS.create` writes one metadata line per added vector and the
vector at position `i` is the embedding of the search key of the section
written at metadata line `i` (1:1 positional correspondence). -/
theorem create_meta_index_aligned (f : String → List Int)
    (service : List String → Except Unit (List (List Int)))
    (sections : List Section) (fs : TopicFS)
    (hsvc : ∀ ts, service ts = .ok (ts.map f)) :
    ∃ embs, FAISSDS_create service sections fs =
        (.ok (), { meta := some sections, index := some embs }) ∧
      embs.length = sections.length ∧
      ∀ i : Nat, embs[i]? = (sections[i]?).map (fun s => f (stripNL s.search_key)) := by
  refine ⟨(sections.map (fun s => s.search_key)).map (fun t => f (stripNL t)),
    ?_, ?_, ?_⟩
  · simp only [FAISSDS_create]
    rw [get_embeddings_ok f service hsvc _ 1000 (by omega)]
  · rw [List.length_map, List.length_map]
  · intro i
    simp only [List.getElem?_map, Option.map_map]
    rfl

/-- C1 witness. -/
theorem create_meta_index_aligned_witness :
    (∀ ts : List String, (fun l => Except.ok (ε := Unit) (l.map (fun t => [(t.length : Int)]))) ts
        = .ok (ts.map (fun t => [(t.length : Int)]))) ∧
    (∃ embs, FAISSDS_create (fun l => Except.ok (l.map (fun t => [(t.length : Int)])))
        [⟨0, "k0", "c0", "7/a.html"⟩] ⟨none, none⟩ =
        (.ok (), { meta := some [⟨0, "k0", "c0", "7/a.html"⟩], index := some embs }) ∧
      embs.length = ([⟨0, "k0", "c0", "7/a.html"⟩] : List Section).length ∧
      ∀ i : Nat, embs[i]? = (([⟨0, "k0", "c0", "7/a.html"⟩] : List Section)[i]?).map
        (fun s => [((stripNL s.search_key).length : Int)]) ) := by
  constructor
  · intro ts
    rfl
  · have h := create_meta_index_aligned (fun t => [(t.length : Int)])
      (fun l => Except.ok (l.map (fun t => [(t.length : Int)])))
      [⟨0, "k0", "c0", "7/a.html"⟩] ⟨none, none⟩ (fun ts => rfl)
    exact h

/-- C2: the claim that a failing `FAISSDS.create` leaves both artifacts
from the same pass or neither is violated by the code: `meta_data.jsonl`
is written BEFORE the embedding-service call, so when that call raises,
the topic directory holds a freshly written metadata file next to the
untouched (stale or missing) index file. -/
theorem create_partial_write_fresh_meta_stale_index
    (service : List String → Except Unit (List (List Int)))
    (sections : List Section) (fs : TopicFS)
    (hfail : get_embeddings service (sections.map (fun s => s.search_key)) 1000
      = .error ()) :
    FAISSDS_create service sections fs = (.error (), { fs with meta := some sections }) ∧
      ({ fs with meta := some sections } : TopicFS).meta = some sections ∧
      ({ fs with meta := some sections } : TopicFS).index = fs.index := by
  refine ⟨?_, rfl, rfl⟩
  simp only [FAISSDS_create]
  rw [hfail]

/-- C2 witness: one section, an embedding service that raises, an empty
topic directory; the run fails with metadata freshly written and no index. -/
theorem create_partial_write_fresh_meta_stale_index_witness :
    (get_embeddings (fun _ => .error ())
        (([⟨0, "k0", "c0", "7/a.html"⟩] : List Section).map (fun s => s.search_key)) 1000
      = .error ()) ∧
    (FAISSDS_create (fun _ => .error ()) [⟨0, "k0", "c0", "7/a.html"⟩] ⟨none, none⟩ =
        (.error (), { (⟨none, none⟩ : TopicFS) with
          meta := some [⟨0, "k0", "c0", "7/a.html"⟩] }) ∧
      ({ (⟨none, none⟩ : TopicFS) with
          meta := some [⟨0, "k0", "c0", "7/a.html"⟩] } : TopicFS).meta
        = some [⟨0, "k0", "c0", "7/a.html"⟩] ∧
      ({ (⟨none, none⟩ : TopicFS) with
          meta := some [⟨0, "k0", "c0", "7/a.html"⟩] } : TopicFS).index
        = (⟨none, none⟩ : TopicFS).index) :=
  ⟨rfl, create_partial_write_fresh_meta_stale_index (fun _ => .error ())
    [⟨0, "k0", "c0", "7/a.html"⟩] ⟨none, none⟩ rfl⟩

/-- C10: the vector stored at index position `i` is computed from section
`i`'s `search_key` label only: two builds whose section lists agree on
search keys (contents arbitrary) produce identical vector lists, vector
`i` being the embedding of the newline-stripped `search_key` of section
`i`; the `content` field is persisted as metadata line `i` (from which
`search_request` returns it via `mkHit`) and is never part of what the
embedding service receives. -/
theorem create_embeds_search_keys_only (f : String → List Int)
    (service : List String → Except Unit (List (List Int)))
    (sections sections2 : List Section) (fs fs2 : TopicFS)
    (hsvc : ∀ ts, service ts = .ok (ts.map f))
    (hkeys : sections.map (fun s => s.search_key)
      = sections2.map (fun s => s.search_key)) :
    ∃ embs,
      FAISSDS_create service sections fs =
        (.ok (), { meta := some sections, index := some embs }) ∧
      FAISSDS_create service sections2 fs2 =
        (.ok (), { meta := some sections2, index := some embs }) ∧
      embs = (sections.map (fun s => s.search_key)).map (fun t => f (stripNL t)) ∧
      (∀ i : Nat, embs[i]? = (sections[i]?).map (fun s => f (stripNL s.search_key))) ∧
      (∀ (d : Section) (score : Int), (mkHit d score).content = d.content) := by
  refine ⟨(sections.map (fun s => s.search_key)).map (fun t => f (stripNL t)),
    ?_, ?_, rfl, ?_, fun d score => rfl⟩
  · simp only [FAISSDS_create]
    rw [get_embeddings_ok f service hsvc _ 1000 (by omega)]
  · simp only [FAISSDS_create]
    rw [get_embeddings_ok f service hsvc _ 1000 (by omega), hkeys]
  · intro i
    simp only [List.getElem?_map, Option.map_map]
    rfl

/-- C10 witness: two single-section lists sharing the search key but with
different contents embed to the same vector list. -/
theorem create_embeds_search_keys_only_witness :
    (∀ ts : List String, (fun l => Except.ok (ε := Unit) (l.map (fun t => [(t.length : Int)]))) ts
        = .ok (ts.map (fun t => [(t.length : Int)]))) ∧
    (([⟨0, "T - chunk 0", "content A", "7/a.html"⟩] : List Section).map (fun s => s.search_key)
      = ([⟨0, "T - chunk 0", "content B", "7/b.html"⟩] : List Section).map (fun s => s.search_key)) ∧
    (∃ embs,
      FAISSDS_create (fun l => Except.ok (l.map (fun t => [(t.length : Int)])))
          [⟨0, "T - chunk 0", "content A", "7/a.html"⟩] ⟨none, none⟩ =
        (.ok (), ⟨some [⟨0, "T - chunk 0", "content A", "7/a.html"⟩], some embs⟩) ∧
      FAISSDS_create (fun l => Except.ok (l.map (fun t => [(t.length : Int)])))
          [⟨0, "T - chunk 0", "content B", "7/b.html"⟩] ⟨none, none⟩ =
        (.ok (), ⟨some [⟨0, "T - chunk 0", "content B", "7/b.html"⟩], some embs⟩) ∧
      embs = (([⟨0, "T - chunk 0", "content A", "7/a.html"⟩] : List Section).map
          (fun s => s.search_key)).map (fun t => [((stripNL t).length : Int)]) ∧
      (∀ i : Nat, embs[i]? = (([⟨0, "T - chunk 0", "content A", "7/a.html"⟩] : List Section)[i]?).map
        (fun s => [((stripNL s.search_key).length : Int)])) ∧
      (∀ (d : Section) (score : Int), (mkHit d score).content = d.content)) := by
  refine ⟨fun ts => rfl, rfl, ?_⟩
  exact create_embeds_search_keys_only (fun t => [(t.length : Int)])
    (fun l => Except.ok (l.map (fun t => [(t.length : Int)])))
    [⟨0, "T - chunk 0", "content A", "7/a.html"⟩]
    [⟨0, "T - chunk 0", "content B", "7/b.html"⟩]
    ⟨none, none⟩ ⟨none, none⟩ (fun ts => rfl) rfl

/-! ### FAISSDS.search_request -/

theorem filterMap_eq_nil_of_all_none {α β : Type} (g : α → Option β)
    (l : List α) (h : ∀ p ∈ l, g p = none) : l.filterMap g = [] :=
  List.filterMap_eq_nil_iff.mpr h

theorem filterMap_length_of_all_some {α β : Type} (g : α → Option β) :
    ∀ l : List α, (∀ p ∈ l, (g p).isSome) → (l.filterMap g).length = l.length := by
  intro l
  induction l with
  | nil => intro _; rfl
  | cons a l ih =>
    intro h
    obtain ⟨y, hy⟩ := Option.isSome_iff_exists.mp (h a (List.mem_cons_self _ _))
    rw [List.filterMap_cons_some hy, List.length_cons, List.length_cons,
      ih (fun p hp => h p (List.mem_cons_of_mem _ hp))]

/-- Skipping `s` raw slots before the `-1` filter is the same as dropping
`s` processed hits, provided the valid slots form a prefix of the raw
list. -/
theorem filterMap_drop_comm {α β : Type} (g : α → Option β) :
    ∀ (A : List α) (B : List α) (s : Nat),
      (∀ p ∈ A, (g p).isSome) → (∀ p ∈ B, g p = none) →
      ((A ++ B).drop s).filterMap g = ((A ++ B).filterMap g).drop s := by
  intro A
  induction A with
  | nil =>
    intro B s _ hB
    simp only [List.nil_append]
    rw [filterMap_eq_nil_of_all_none g B hB,
      filterMap_eq_nil_of_all_none g _ (fun p hp => hB p (List.drop_subset _ _ hp))]
    simp
  | cons a A ih =>
    intro B s hA hB
    cases s with
    | zero => simp
    | succ s =>
      obtain ⟨y, hy⟩ := Option.isSome_iff_exists.mp (hA a (List.mem_cons_self _ _))
      rw [List.cons_append, List.drop_succ_cons, List.filterMap_cons_some hy,
        List.drop_succ_cons]
      exact ih B s (fun p hp => hA p (List.mem_cons_of_mem _ hp)) hB

/-- The hit built from a sorted slot keeps the slot's score, so a
score-sorted slot list yields a score-sorted hit list. -/
theorem pairwise_score_filterMap (docs : List Section) :
    ∀ l : List (Int × Int), l.Pairwise scoreGE →
      (l.filterMap (hitOf docs)).Pairwise (fun a b : Hit => b.score ≤ a.score) := by
  have hsc : ∀ p h, hitOf docs p = some h → h.score = p.1 := by
    intro p h hp
    rw [hitOf] at hp
    split at hp
    · exact absurd hp (by simp)
    · obtain ⟨d, _, hd⟩ := Option.map_eq_some'.mp hp
      rw [← hd]
      rfl
  intro l
  induction l with
  | nil => intro _; simp
  | cons a l ih =>
    intro hp
    rw [List.pairwise_cons] at hp
    obtain ⟨ha, hl⟩ := hp
    cases hga : hitOf docs a with
    | none =>
      rw [List.filterMap_cons_none hga]
      exact ih hl
    | some y =>
      rw [List.filterMap_cons_some hga, List.pairwise_cons]
      refine ⟨?_, ih hl⟩
      intro z hz
      obtain ⟨p, hpl, hgp⟩ := List.mem_filterMap.mp hz
      have h1 := hsc a y hga
      have h2 := hsc p z hgp
      have h3 : p.1 ≤ a.1 := ha p hpl
      rw [h1, h2]
      exact h3

/-- `faissSearch` unfolded: the score-sorted stored slots first, then the
`-1` padding. -/
theorem faissSearch_eq (stored : List (List Int)) (q : List Int) (n : Nat) :
    faissSearch stored q n =
      (List.insertionSort scoreGE ((List.range stored.length).map
        (fun i => (dot q (stored.getD i []), (i : Int))))).take n
      ++ List.replicate (n - ((List.insertionSort scoreGE ((List.range stored.length).map
        (fun i => (dot q (stored.getD i []), (i : Int))))).take n).length) (0, -1) := rfl

/-- Every slot of the sorted stored list has a nonnegative id below the
document count (assuming index and metadata were built together). -/
theorem sorted_slots_valid (docs : List Section) (stored : List (List Int))
    (q : List Int) (hlen : stored.length = docs.length) :
    ∀ p ∈ List.insertionSort scoreGE ((List.range stored.length).map
        (fun i => (dot q (stored.getD i []), (i : Int)))),
      0 ≤ p.2 ∧ p.2.toNat < docs.length := by
  intro p hp
  rw [List.mem_insertionSort] at hp
  simp only [List.mem_map, List.mem_range] at hp
  obtain ⟨i, hi, rfl⟩ := hp
  refine ⟨Int.ofNat_nonneg i, ?_⟩
  simpa [← hlen] using hi

theorem hitOf_isSome_of_valid (docs : List Section) {p : Int × Int}
    (h : 0 ≤ p.2 ∧ p.2.toNat < docs.length) : (hitOf docs p).isSome := by
  obtain ⟨hpos, hlt⟩ := h
  have hne : ¬ (p.2 = -1) := by omega
  rw [hitOf, if_neg hne, List.getElem?_eq_getElem hlt]
  rfl

theorem hitOf_pad_none (docs : List Section) {p : Int × Int}
    (h : p ∈ List.replicate m ((0 : Int), (-1 : Int))) : hitOf docs p = none := by
  have := List.eq_of_mem_replicate h
  subst this
  rfl

/-- C3: `search_request` returns hits sorted by non-increasing score,
returns exactly `min topk (available - skip)` hits (no padding, no error,
index-miss slots silently omitted), and paginating with `skip = s` equals
asking for `topk + s` hits without skip and dropping the first `s`. -/
theorem search_request_spec (docs : List Section) (stored : List (List Int))
    (q : List Int) (topk skip : Nat) (hlen : stored.length = docs.length) :
    (search_request docs stored q topk skip).Pairwise
        (fun a b : Hit => b.score ≤ a.score) ∧
      (search_request docs stored q topk skip).length
        = min topk (stored.length - skip) ∧
      search_request docs stored q topk skip
        = (search_request docs stored q (topk + skip) 0).drop skip := by
  have hTsorted : (List.insertionSort scoreGE ((List.range stored.length).map
      (fun i => (dot q (stored.getD i []), (i : Int))))).Pairwise scoreGE :=
    List.sorted_insertionSort scoreGE _
  have hTlen : (List.insertionSort scoreGE ((List.range stored.length).map
      (fun i => (dot q (stored.getD i []), (i : Int))))).length = stored.length := by
    rw [List.length_insertionSort, List.length_map, List.length_range]
  have hvalid := sorted_slots_valid docs stored q hlen
  have hA : ∀ p ∈ (List.insertionSort scoreGE ((List.range stored.length).map
      (fun i => (dot q (stored.getD i []), (i : Int))))).take (topk + skip),
      (hitOf docs p).isSome :=
    fun p hp => hitOf_isSome_of_valid docs (hvalid p (List.take_subset _ _ hp))
  have hB : ∀ p ∈ List.replicate
      ((topk + skip) - ((List.insertionSort scoreGE ((List.range stored.length).map
        (fun i => (dot q (stored.getD i []), (i : Int))))).take (topk + skip)).length)
      ((0 : Int), (-1 : Int)), hitOf docs p = none :=
    fun _ hp => hitOf_pad_none docs hp
  have hcomm := filterMap_drop_comm (hitOf docs) _ _ skip hA hB
  have hfm : ((List.insertionSort scoreGE ((List.range stored.length).map
        (fun i => (dot q (stored.getD i []), (i : Int))))).take (topk + skip)
      ++ List.replicate ((topk + skip) - ((List.insertionSort scoreGE
        ((List.range stored.length).map (fun i =>
          (dot q (stored.getD i []), (i : Int))))).take (topk + skip)).length)
        ((0 : Int), (-1 : Int))).filterMap (hitOf docs)
      = ((List.insertionSort scoreGE ((List.range stored.length).map
        (fun i => (dot q (stored.getD i []), (i : Int))))).take (topk + skip)).filterMap
        (hitOf docs) := by
    rw [List.filterMap_append, filterMap_eq_nil_of_all_none _ _ hB, List.append_nil]
  have hreq : search_request docs stored q topk skip
      = ((((List.insertionSort scoreGE ((List.range stored.length).map
        (fun i => (dot q (stored.getD i []), (i : Int))))).take (topk + skip)).filterMap
          (hitOf docs))).drop skip := by
    show ((faissSearch stored q (topk + skip)).drop skip).filterMap (hitOf docs) = _
    rw [faissSearch_eq, hcomm, hfm]
  refine ⟨?_, ?_, ?_⟩
  · rw [hreq]
    exact ((pairwise_score_filterMap docs _
      (hTsorted.sublist (List.take_sublist _ _))).sublist (List.drop_sublist _ _))
  · rw [hreq, List.length_drop,
      filterMap_length_of_all_some (hitOf docs) _ hA, List.length_take, hTlen]
    omega
  · rw [hreq]
    show _ = (((faissSearch stored q (topk + skip + 0)).drop 0).filterMap (hitOf docs)).drop skip
    rw [Nat.add_zero, List.drop_zero, faissSearch_eq, hfm]

/-- C3 witness: three stored vectors, two documents... (sizes chosen so
that skip exercises a real drop: stored length 3, docs length 3,
topk = 2, skip = 1). -/
theorem search_request_spec_witness :
    (([[2, 0], [1, 0], [3, 0]] : List (List Int)).length
      = ([⟨0, "k0", "c0", "7/a.html"⟩, ⟨1, "k1", "c1", "7/b.html"⟩,
          ⟨2, "k2", "c2", "7/c.html"⟩] : List Section).length) ∧
    ((search_request [⟨0, "k0", "c0", "7/a.html"⟩, ⟨1, "k1", "c1", "7/b.html"⟩,
          ⟨2, "k2", "c2", "7/c.html"⟩] [[2, 0], [1, 0], [3, 0]] [1, 0] 2 1).Pairwise
        (fun a b : Hit => b.score ≤ a.score) ∧
      (search_request [⟨0, "k0", "c0", "7/a.html"⟩, ⟨1, "k1", "c1", "7/b.html"⟩,
          ⟨2, "k2", "c2", "7/c.html"⟩] [[2, 0], [1, 0], [3, 0]] [1, 0] 2 1).length
        = min 2 (([[2, 0], [1, 0], [3, 0]] : List (List Int)).length - 1) ∧
      search_request [⟨0, "k0", "c0", "7/a.html"⟩, ⟨1, "k1", "c1", "7/b.html"⟩,
          ⟨2, "k2", "c2", "7/c.html"⟩] [[2, 0], [1, 0], [3, 0]] [1, 0] 2 1
        = (search_request [⟨0, "k0", "c0", "7/a.html"⟩, ⟨1, "k1", "c1", "7/b.html"⟩,
            ⟨2, "k2", "c2", "7/c.html"⟩] [[2, 0], [1, 0], [3, 0]] [1, 0] (2 + 1) 0).drop 1) :=
  ⟨rfl, search_request_spec
    [⟨0, "k0", "c0", "7/a.html"⟩, ⟨1, "k1", "c1", "7/b.html"⟩,
      ⟨2, "k2", "c2", "7/c.html"⟩] [[2, 0], [1, 0], [3, 0]] [1, 0] 2 1 rfl⟩

/-! ### QueryTool.answer status gating -/

/-- C7 counterexample: in the bot variant (src/bot/tools.py), a question
about a game whose status is `researching` is answered through the
web-search path with a disclaimer, not with the "not ready yet" status
message that the claim requires; no vector search happens, but the reply
is not the status message. -/
theorem answerBot_no_not_ready_message :
    (get_game_by_name stResearching "Catan").map (fun g => g.status)
      = some "researching" ∧
    (answerBot env0 stResearching 1 "how many players?" (some "Catan")).1
      = Reply.webAnswered
          (env0.webAnswer "Catan" "how many players?" "") none true ∧
    (∀ n s : String,
      (answerBot env0 stResearching 1 "how many players?" (some "Catan")).1
        ≠ Reply.notReady n s) ∧
    (answerBot env0 stResearching 1 "how many players?" (some "Catan")).2
      = false := by
  refine ⟨rfl, rfl, ?_, rfl⟩
  intro n s h
  simp [answerBot, env0, stResearching, get_game_by_name] at h

/-- C7 amended: when the resolved game's status is not `ready`, neither
variant of `QueryTool.answer` consults the vector index store; the app
variant (src/app/tools.py) returns the "not ready yet" status message,
while the bot variant (src/bot/tools.py) instead returns a web-search
answer carrying the "I haven't done thorough research yet" disclaimer. -/
theorem answer_status_gate (env : Env) (st : DBState) (chat_id : Nat)
    (user_text gname : String) (game : GameRow)
    (hfind : get_game_by_name st gname = some game)
    (hnr : game.status ≠ "ready") :
    answerApp env st chat_id user_text (some gname)
        = (.notReady game.name game.status, false) ∧
      answerBot env st chat_id user_text (some gname)
        = (.webAnswered (env.webAnswer gname user_text "") none true, false) := by
  constructor
  · simp only [answerApp, hfind]
    rw [if_pos hnr]
  · simp only [answerBot, hfind]
    rw [if_neg hnr]

/-- C7 amended witness: the `researching` Catan game. -/
theorem answer_status_gate_witness :
    get_game_by_name stResearching "Catan"
      = some ⟨1, "Catan", none, "researching", "storage/games/1"⟩ ∧
    (⟨1, "Catan", none, "researching", "storage/games/1"⟩ : GameRow).status
      ≠ "ready" ∧
    (answerApp env0 stResearching 1 "q" (some "Catan")
        = (.notReady "Catan" "researching", false) ∧
      answerBot env0 stResearching 1 "q" (some "Catan")
        = (.webAnswered (env0.webAnswer "Catan" "q" "") none true, false)) :=
  ⟨rfl, by decide,
    answer_status_gate env0 stResearching 1 "q" "Catan"
      ⟨1, "Catan", none, "researching", "storage/games/1"⟩ rfl (by decide)⟩

/-! ### Ingestion over materialized sources -/

theorem pySplitAux_ne_nil (l : List Char) :
    ∀ acc, (l.any (fun c => !c.isWhitespace) = true ∨ acc ≠ []) →
      pySplitAux l acc ≠ [] := by
  induction l with
  | nil =>
    intro acc h
    rcases h with h | h
    · simp at h
    · simp only [pySplitAux]
      rw [if_neg h]
      simp
  | cons c rest ih =>
    intro acc h
    simp only [pySplitAux]
    by_cases hc : c.isWhitespace
    · rw [if_pos hc]
      by_cases hacc : acc = []
      · rw [if_pos hacc]
        apply ih []
        left
        rcases h with h | h
        · simpa [hc] using h
        · exact absurd hacc h
      · rw [if_neg hacc]
        simp
    · rw [if_neg hc]
      apply ih (c :: acc)
      right
      simp

/-- Text that passes the `if chunk.strip():`-style truthiness test splits
into at least one word. -/
theorem pySplit_ne_nil_of_truthy (s : String) (h : pyStripTruthy s = true) :
    pySplit s ≠ [] :=
  pySplitAux_ne_nil s.data [] (Or.inl h)

/-- A local path ending in `.pdf` (and not in `.html`/`.txt`) is skipped
by the ingest read step: PDF parsing is not implemented. -/
theorem sourceText_pdf (env : FSEnv) (src : SourceRow) (lp : String)
    (h1 : src.local_path = some lp) (h2 : pyEndsWith lp ".html" = false)
    (h3 : pyEndsWith lp ".txt" = false) (h4 : pyEndsWith lp ".pdf" = true) :
    sourceText env src = none := by
  by_cases hex : env.fileExists lp
  · simp [sourceText, h1, hex, h2, h3, h4]
  · simp [sourceText, h1, hex]

theorem sourceSections_none (env : FSEnv) (gid : Nat) (src : SourceRow)
    (sid : Nat) (hskip : sourceText env src = none) :
    sourceSections env gid src sid = [] := by
  simp [sourceSections, hskip]

/-- A source whose text read is skipped contributes nothing to the
section list, wherever it sits in the source list. -/
theorem buildSections_skip (env : FSEnv) (gid : Nat) (src : SourceRow)
    (hskip : sourceText env src = none) :
    ∀ (pre post : List SourceRow) (sid : Nat),
      buildSections env gid (pre ++ src :: post) sid
        = buildSections env gid (pre ++ post) sid := by
  intro pre
  induction pre with
  | nil =>
    intro post sid
    simp only [List.nil_append, buildSections,
      sourceSections_none env gid src sid hskip, List.length_nil,
      Nat.add_zero]
  | cons p pre ih =>
    intro post sid
    simp only [List.cons_append, buildSections]
    exact congrArg (fun l => sourceSections env gid p sid ++ l)
      (ih post (sid + (sourceSections env gid p sid).length))

theorem sectionsOfChunks_length (title furl : String) :
    ∀ (cs : List String) (sid : Nat),
      (sectionsOfChunks title furl sid cs).length = cs.length := by
  intro cs
  induction cs with
  | nil => intro sid; rfl
  | cons c cs ih =>
    intro sid
    simp only [sectionsOfChunks, List.length_cons, ih]

/-- C9 counterexample: a topic with a materialized PDF source (file
present) and a materialized HTML source: the built section list contains
chunks of the HTML page only; the PDF contributes no chunk, contradicting
"every source with a local file present contributes its text". -/
theorem ingest_pdf_not_chunked :
    ingest_game_sources fsC9 stC9 1 =
      .ok ([⟨0, "Catan Wiki - chunk 0", "Catan is a trade game",
        "1/catan.html"⟩], "1") ∧
    (stC9.sources[0]?).map (fun s => s.local_path)
      = some (some "storage/games/1/catan.pdf") ∧
    fsC9.fileExists "storage/games/1/catan.pdf" = true ∧
    (∀ sec ∈ ([⟨0, "Catan Wiki - chunk 0", "Catan is a trade game",
        "1/catan.html"⟩] : List Section), sec.file_url ≠ "1/catan.pdf") := by
  refine ⟨?_, rfl, rfl, by decide⟩
  rfl

/-- C9 amended: the indexing step chunks every materialized `.txt` source
and every `.html` source (through its extracted `.txt` sibling) with
non-blank readable text, but PDF sources are skipped (PDF parsing not
implemented) and contribute no chunks; `ingest_game_sources` builds the
index over exactly the sections so collected. -/
theorem ingest_materialized_spec (env : FSEnv) (gid : Nat) :
    (∀ (pre post : List SourceRow) (src : SourceRow) (sid : Nat) (lp : String),
      src.local_path = some lp → pyEndsWith lp ".html" = false →
      pyEndsWith lp ".txt" = false → pyEndsWith lp ".pdf" = true →
      buildSections env gid (pre ++ src :: post) sid
        = buildSections env gid (pre ++ post) sid) ∧
    (∀ (src : SourceRow) (rest : List SourceRow) (sid : Nat) (lp tc : String),
      src.local_path = some lp → env.fileExists lp = true →
      pyEndsWith lp ".html" = false → pyEndsWith lp ".txt" = true →
      env.readFile lp = some tc → pyStripTruthy tc = true →
      1 ≤ (buildSections env gid (src :: rest) sid).length) ∧
    (∀ (st : DBState) (g : GameRow), get_game_by_id st gid = some g →
      ingest_game_sources env st gid
        = .ok (buildSections env gid (list_sources_for_game st gid) 0,
            toString gid)) := by
  refine ⟨?_, ?_, ?_⟩
  · intro pre post src sid lp h1 h2 h3 h4
    exact buildSections_skip env gid src (sourceText_pdf env src lp h1 h2 h3 h4)
      pre post sid
  · intro src rest sid lp tc h1 hex h2 h3 hread hstrip
    have hst : sourceText env src = some tc := by
      simp [sourceText, h1, hex, h2, h3, hread]
    obtain ⟨cs, hok, hlen, -, -, -⟩ := chunk_text_window_spec tc 1000 200 (by omega)
    have hwords : pySplit tc ≠ [] := pySplit_ne_nil_of_truthy tc hstrip
    have hwlen : 1 ≤ (pySplit tc).length := List.length_pos.mpr hwords
    have hcs : 1 ≤ cs.length := by
      rw [hlen, Nat.one_le_div_iff (by omega)]
      omega
    have hss : sourceSections env gid src sid
        = sectionsOfChunks src.title
          (toString gid ++ "/" ++ env.basename (src.local_path.getD "")) sid cs := by
      simp [sourceSections, hst, hstrip, hok]
    simp only [buildSections, List.length_append, hss, sectionsOfChunks_length]
    omega
  · intro st g hg
    simp only [ingest_game_sources, hg]

/-- C9 amended witness: the PDF source is skipped, the text source
contributes at least one chunk, and ingest over the PDF + HTML state
builds the section list over its sources. -/
theorem ingest_materialized_spec_witness :
    (buildSections fsC9 1 ([] ++ pdfSrc :: []) 0
      = buildSections fsC9 1 ([] ++ []) 0) ∧
    (1 ≤ (buildSections fsC9 1 (txtSrc :: []) 0).length) ∧
    (ingest_game_sources fsC9 stC9 1
      = .ok (buildSections fsC9 1 (list_sources_for_game stC9 1) 0,
          toString 1)) :=
  ⟨(ingest_materialized_spec fsC9 1).1 [] [] pdfSrc 0
      "storage/games/1/catan.pdf" rfl rfl rfl rfl,
    (ingest_materialized_spec fsC9 1).2.1 txtSrc [] 0
      "storage/games/1/catan.txt" "Catan is a trade game" rfl rfl rfl rfl rfl rfl,
    (ingest_materialized_spec fsC9 1).2.2 stC9
      ⟨1, "Catan", none, "researching", "storage/games/1"⟩ rfl⟩

/-! ### Research run: unreachable sources degrade, never abort -/

/-- The link-only fallback of `_save_source`: no YouTube match and a
failed GET persist the URL as a plain-link row with null local path. -/
theorem save_source_link (env : Env) (st : DBState) (game : GameRow)
    (title url : String) (hyt : env.ytId url = none)
    (hget : env.httpGet url = none) :
    save_source env st game title url
      = ((0, 1), add_game_source st game.id "link" url title none) := by
  simp only [save_source, hyt, hget]

/-- Every `_save_source` call inserts exactly one source row, touches no
game row, and reports exactly one of (downloaded, linked). -/
theorem save_source_appends_one (env : Env) (st : DBState) (game : GameRow)
    (title url : String) :
    ∃ row : SourceRow,
      (save_source env st game title url).2.sources = st.sources ++ [row] ∧
      (save_source env st game title url).2.games = st.games ∧
      (save_source env st game title url).1.1
          + (save_source env st game title url).1.2 = 1 := by
  simp only [save_source]
  repeat' split
  all_goals exact ⟨_, rfl, rfl, rfl⟩

/-- The source-batch loop: one row appended per URL in batch order, games
untouched, counters summing to the batch size, and every URL whose GET
fails (and is not a video) recorded as a link-only row at its position. -/
theorem saveAll_spec (env : Env) (game : GameRow) :
    ∀ (l : List (String × String)) (st : DBState),
      (∃ tail : List SourceRow,
        (saveAll env game l st).2.sources = st.sources ++ tail ∧
        tail.length = l.length) ∧
      (saveAll env game l st).2.games = st.games ∧
      (saveAll env game l st).1.1 + (saveAll env game l st).1.2 = l.length ∧
      (∀ (k : Nat) (tu : String × String), l[k]? = some tu →
        env.ytId tu.2 = none → env.httpGet tu.2 = none →
        ∃ row : SourceRow,
          (saveAll env game l st).2.sources[st.sources.length + k]? = some row ∧
          row.source_type = "link" ∧ row.url = tu.2 ∧ row.title = tu.1 ∧
          row.local_path = none) := by
  intro l
  induction l with
  | nil =>
    intro st
    refine ⟨⟨[], by simp [saveAll], rfl⟩, rfl, rfl, ?_⟩
    intro k tu h
    simp at h
  | cons tu0 rest ih =>
    intro st
    obtain ⟨t0, u0⟩ := tu0
    obtain ⟨row0, hs1, hg1, hc1⟩ := save_source_appends_one env st game t0 u0
    obtain ⟨⟨tail, hs2, hlen2⟩, hg2, hc2, hpos2⟩ :=
      ih (save_source env st game t0 u0).2
    have hsave : saveAll env game ((t0, u0) :: rest) st
        = ((((save_source env st game t0 u0).1.1
              + (saveAll env game rest (save_source env st game t0 u0).2).1.1,
            (save_source env st game t0 u0).1.2
              + (saveAll env game rest (save_source env st game t0 u0).2).1.2)),
          (saveAll env game rest (save_source env st game t0 u0).2).2) := rfl
    have hr1len : (save_source env st game t0 u0).2.sources.length
        = st.sources.length + 1 := by
      rw [hs1, List.length_append, List.length_cons, List.length_nil]
    refine ⟨⟨row0 :: tail, ?_, ?_⟩, ?_, ?_, ?_⟩
    · rw [hsave, hs2, hs1, List.append_assoc]
      rfl
    · rw [List.length_cons, hlen2, List.length_cons]
    · rw [hsave, hg2, hg1]
    · rw [hsave]
      simp only [List.length_cons]
      omega
    · intro k tu hk hyt hget
      cases k with
      | zero =>
        rw [List.getElem?_cons_zero] at hk
        injection hk with hk0
        subst hk0
        have hlink := save_source_link env st game t0 u0 hyt hget
        refine ⟨⟨st.nextSourceId, game.id, "link", u0, t0, none⟩, ?_, rfl, rfl, rfl, rfl⟩
        rw [hsave, hs2, hlink]
        show ((add_game_source st game.id "link" u0 t0 none).sources ++ tail)[st.sources.length + 0]? = _
        rw [Nat.add_zero]
        have : (add_game_source st game.id "link" u0 t0 none).sources
            = st.sources ++ [⟨st.nextSourceId, game.id, "link", u0, t0, none⟩] := rfl
        rw [this, List.append_assoc,
          List.getElem?_append_right (Nat.le_refl _), Nat.sub_self,
          List.singleton_append, List.getElem?_cons_zero]
      | succ k =>
        rw [List.getElem?_cons_succ] at hk
        obtain ⟨row, hrow, hrest⟩ := hpos2 k tu hk hyt hget
        refine ⟨row, ?_, hrest⟩
        rw [hsave]
        have hidx : st.sources.length + (k + 1)
            = (save_source env st game t0 u0).2.sources.length + k := by
          omega
        rw [hidx]
        exact hrow

theorem get_or_create_sources (st : DBState) (nm : String) :
    (get_or_create_game st nm).2.sources = st.sources := by
  simp only [get_or_create_game]
  cases get_game_by_name st nm with
  | some g => rfl
  | none =>
    cases get_game_by_id
        (update_game_store_dir (create_game st nm "temp" "created").2
          (create_game st nm "temp" "created").1
          (GAMES_DIR ++ "/" ++ toString (create_game st nm "temp" "created").1))
        (create_game st nm "temp" "created").1 with
    | some g => rfl
    | none => rfl

/-- C8: a URL whose GET fails (non-2xx or network error, `http_get`
returns None) and that is not a video URL is persisted as a link-only
source with null local path; the research run still processes every URL
of the deduplicated batch (one row per URL, counters summing to the batch
size) and returns the knowledge-base-created success summary: a single
unreachable source never aborts the run. -/
theorem research_unreachable_source_tolerated (env : Env) (st0 : DBState)
    (name : String)
    (hnr : ¬ ((get_or_create_game st0 name).1.status = "ready"
      ∨ (get_or_create_game st0 name).1.status = "researched")) :
    (∀ (st : DBState) (game : GameRow) (title url : String),
      env.ytId url = none → env.httpGet url = none →
      save_source env st game title url
        = ((0, 1), add_game_source st game.id "link" url title none)) ∧
    (∃ d l, (research env st0 name).reply
        = .createdSummary (get_or_create_game st0 name).1.name d l
            (get_or_create_game st0 name).1.id ∧
      d + l = (uniqSources env (get_or_create_game st0 name).1.name).length) ∧
    (research env st0 name).st.sources.length
      = st0.sources.length
        + (uniqSources env (get_or_create_game st0 name).1.name).length ∧
    (∀ (k : Nat) (tu : String × String),
      (uniqSources env (get_or_create_game st0 name).1.name)[k]? = some tu →
      env.ytId tu.2 = none → env.httpGet tu.2 = none →
      ∃ row : SourceRow,
        (research env st0 name).st.sources[st0.sources.length + k]? = some row ∧
        row.source_type = "link" ∧ row.url = tu.2 ∧ row.title = tu.1 ∧
        row.local_path = none) := by
  have hre : research env st0 name =
      ⟨.createdSummary (get_or_create_game st0 name).1.name
          (saveAll env (get_or_create_game st0 name).1
            (uniqSources env (get_or_create_game st0 name).1.name)
            (update_game_status (get_or_create_game st0 name).2
              (get_or_create_game st0 name).1.id "researching")).1.1
          (saveAll env (get_or_create_game st0 name).1
            (uniqSources env (get_or_create_game st0 name).1.name)
            (update_game_status (get_or_create_game st0 name).2
              (get_or_create_game st0 name).1.id "researching")).1.2
          (get_or_create_game st0 name).1.id,
        (uniqSources env (get_or_create_game st0 name).1.name).map
          (fun tu => tu.2),
        update_game_status
          (match env.describe (get_or_create_game st0 name).1.name with
            | some d => update_game_description
                (saveAll env (get_or_create_game st0 name).1
                  (uniqSources env (get_or_create_game st0 name).1.name)
                  (update_game_status (get_or_create_game st0 name).2
                    (get_or_create_game st0 name).1.id "researching")).2
                (get_or_create_game st0 name).1.id d
            | none => (saveAll env (get_or_create_game st0 name).1
                (uniqSources env (get_or_create_game st0 name).1.name)
                (update_game_status (get_or_create_game st0 name).2
                  (get_or_create_game st0 name).1.id "researching")).2)
          (get_or_create_game st0 name).1.id "ready"⟩ := by
    simp only [research]
    rw [if_neg hnr]
  obtain ⟨⟨tail, hs, hlen⟩, hg, hsum, hpos⟩ :=
    saveAll_spec env (get_or_create_game st0 name).1
      (uniqSources env (get_or_create_game st0 name).1.name)
      (update_game_status (get_or_create_game st0 name).2
        (get_or_create_game st0 name).1.id "researching")
  have hbase : (update_game_status (get_or_create_game st0 name).2
      (get_or_create_game st0 name).1.id "researching").sources
      = st0.sources := get_or_create_sources st0 name
  have hfinal : (research env st0 name).st.sources
      = (saveAll env (get_or_create_game st0 name).1
          (uniqSources env (get_or_create_game st0 name).1.name)
          (update_game_status (get_or_create_game st0 name).2
            (get_or_create_game st0 name).1.id "researching")).2.sources := by
    rw [hre]
    cases env.describe (get_or_create_game st0 name).1.name with
    | some d => rfl
    | none => rfl
  refine ⟨fun st game title url hyt hget =>
      save_source_link env st game title url hyt hget, ?_, ?_, ?_⟩
  · exact ⟨_, _, by rw [hre], hsum⟩
  · rw [hfinal, hs, List.length_append, hbase, hlen]
  · intro k tu hk hyt hget
    obtain ⟨row, hrow, hrest⟩ := hpos k tu hk hyt hget
    refine ⟨row, ?_, hrest⟩
    rw [hfinal]
    rw [hbase] at hrow
    exact hrow

/-- C8 witness: a fresh database and an environment whose every GET
fails; the single deduplicated seed URL (the Wikipedia fallback) is
persisted link-only and the run reports success. -/
theorem research_unreachable_source_tolerated_witness :
    (¬ ((get_or_create_game ⟨[], [], 1, 1⟩ "Catan").1.status = "ready"
      ∨ (get_or_create_game ⟨[], [], 1, 1⟩ "Catan").1.status = "researched")) ∧
    ((∀ (st : DBState) (game : GameRow) (title url : String),
      env0.ytId url = none → env0.httpGet url = none →
      save_source env0 st game title url
        = ((0, 1), add_game_source st game.id "link" url title none)) ∧
    (∃ d l, (research env0 ⟨[], [], 1, 1⟩ "Catan").reply
        = .createdSummary (get_or_create_game ⟨[], [], 1, 1⟩ "Catan").1.name d l
            (get_or_create_game ⟨[], [], 1, 1⟩ "Catan").1.id ∧
      d + l = (uniqSources env0
        (get_or_create_game ⟨[], [], 1, 1⟩ "Catan").1.name).length) ∧
    (research env0 ⟨[], [], 1, 1⟩ "Catan").st.sources.length
      = (⟨[], [], 1, 1⟩ : DBState).sources.length
        + (uniqSources env0
            (get_or_create_game ⟨[], [], 1, 1⟩ "Catan").1.name).length ∧
    (∀ (k : Nat) (tu : String × String),
      (uniqSources env0 (get_or_create_game ⟨[], [], 1, 1⟩ "Catan").1.name)[k]?
        = some tu →
      env0.ytId tu.2 = none → env0.httpGet tu.2 = none →
      ∃ row : SourceRow,
        (research env0 ⟨[], [], 1, 1⟩ "Catan").st.sources[
          (⟨[], [], 1, 1⟩ : DBState).sources.length + k]? = some row ∧
        row.source_type = "link" ∧ row.url = tu.2 ∧ row.title = tu.1 ∧
        row.local_path = none)) :=
  ⟨by decide,
    research_unreachable_source_tolerated env0 ⟨[], [], 1, 1⟩ "Catan" (by decide)⟩

/-! ### Research idempotency -/

theorem find?_congr_pw {α : Type} (p q : α → Bool) (h : ∀ x, p x = q x) :
    ∀ l : List α, l.find? p = l.find? q := by
  intro l
  induction l with
  | nil => rfl
  | cons a l ih =>
    cases hpa : p a with
    | true =>
      rw [List.find?_cons_of_pos _ hpa,
        List.find?_cons_of_pos _ (by rw [← h a]; exact hpa)]
    | false =>
      rw [List.find?_cons_of_neg _ (by simp [hpa]),
        List.find?_cons_of_neg _ (by rw [← h a]; simp [hpa]), ih]

/-- `find?` commutes with a row update that does not change the
predicate's verdict. -/
theorem find?_map_pred {α : Type} (u : α → α) (p : α → Bool)
    (hp : ∀ g, p (u g) = p g) (l : List α) :
    (l.map u).find? p = (l.find? p).map u := by
  rw [List.find?_map, find?_congr_pw (p ∘ u) p (fun x => hp x) l]

/-- Status updates do not change which row a by-name lookup returns (it
returns the updated row). -/
theorem get_game_by_name_update_status (st : DBState) (gid : Nat)
    (s nm : String) :
    get_game_by_name (update_game_status st gid s) nm
      = (get_game_by_name st nm).map
          (fun g => if g.id = gid then { g with status := s } else g) :=
  find?_map_pred _ _
    (fun g => by by_cases h : g.id = gid <;> simp [h]) st.games

/-- Description updates do not change which row a by-name lookup returns. -/
theorem get_game_by_name_update_description (st : DBState) (gid : Nat)
    (d nm : String) :
    get_game_by_name (update_game_description st gid d) nm
      = (get_game_by_name st nm).map
          (fun g => if g.id = gid then { g with description := some d } else g) :=
  find?_map_pred _ _
    (fun g => by by_cases h : g.id = gid <;> simp [h]) st.games

/-- A by-name lookup only reads the games list. -/
theorem get_game_by_name_eq_of_games (st st' : DBState)
    (h : st.games = st'.games) (nm : String) :
    get_game_by_name st nm = get_game_by_name st' nm := by
  unfold get_game_by_name
  rw [h]

/-- After `get_or_create_game`, a by-name lookup in the resulting state
finds exactly the returned row (needs the id-freshness invariant of the
autoincrement counter). -/
theorem get_or_create_find (st0 : DBState) (nm : String)
    (hwf : ∀ g ∈ st0.games, g.id < st0.nextGameId) :
    get_game_by_name (get_or_create_game st0 nm).2 nm
      = some (get_or_create_game st0 nm).1 := by
  cases hf : get_game_by_name st0 nm with
  | some g =>
    simp only [get_or_create_game, hf]
  | none =>
    have hfnone : st0.games.find?
        (fun g => sqlLower g.name == sqlLower nm) = none := hf
    have hidnone : st0.games.find?
        (fun g => g.id == st0.nextGameId) = none := by
      rw [List.find?_eq_none]
      intro x hx
      have := hwf x hx
      simp only [beq_iff_eq]
      omega
    have hgid : get_game_by_id
        (update_game_store_dir (create_game st0 nm "temp" "created").2
          (create_game st0 nm "temp" "created").1
          (GAMES_DIR ++ "/" ++ toString (create_game st0 nm "temp" "created").1))
        (create_game st0 nm "temp" "created").1
        = some ⟨st0.nextGameId, nm, none, "created",
            GAMES_DIR ++ "/" ++ toString st0.nextGameId⟩ := by
      show ((st0.games ++ ([⟨st0.nextGameId, nm, none, "created", "temp"⟩]
            : List GameRow)).map
          (fun g : GameRow => if g.id = st0.nextGameId then
            { g with store_dir := GAMES_DIR ++ "/" ++ toString st0.nextGameId }
          else g)).find? (fun g => g.id == st0.nextGameId) = _
      rw [find?_map_pred _ _
        (fun g => by by_cases h : g.id = st0.nextGameId <;> simp [h]) _]
      rw [List.find?_append, hidnone, Option.none_or,
        List.find?_cons_of_pos _ (by simp)]
      simp
    simp only [get_or_create_game, hf, hgid]
    show ((st0.games ++ ([⟨st0.nextGameId, nm, none, "created", "temp"⟩]
          : List GameRow)).map
        (fun g : GameRow => if g.id = st0.nextGameId then
          { g with store_dir := GAMES_DIR ++ "/" ++ toString st0.nextGameId }
        else g)).find? (fun g => sqlLower g.name == sqlLower nm) = _
    rw [find?_map_pred _ _
      (fun g => by by_cases h : g.id = st0.nextGameId <;> simp [h]) _]
    rw [List.find?_append, hfnone, Option.none_or,
      List.find?_cons_of_pos _ (by simp)]
    simp

/-- After any `research` call, a by-name lookup finds a row with the same
name as the row research worked on, whose status is one of the
"already researched" statuses. -/
theorem research_find (env : Env) (st0 : DBState) (name : String)
    (hwf : ∀ g ∈ st0.games, g.id < st0.nextGameId) :
    ∃ gR : GameRow,
      get_game_by_name (research env st0 name).st name = some gR ∧
      (gR.status = "ready" ∨ gR.status = "researched") ∧
      gR.name = (get_or_create_game st0 name).1.name := by
  have h1 := get_or_create_find st0 name hwf
  by_cases hs : (get_or_create_game st0 name).1.status = "ready"
      ∨ (get_or_create_game st0 name).1.status = "researched"
  · have hre : (research env st0 name).st = (get_or_create_game st0 name).2 := by
      simp only [research]
      rw [if_pos hs]
    exact ⟨(get_or_create_game st0 name).1, by rw [hre]; exact h1, hs, rfl⟩
  · have hre : (research env st0 name).st
        = update_game_status
            (match env.describe (get_or_create_game st0 name).1.name with
              | some d => update_game_description
                  (saveAll env (get_or_create_game st0 name).1
                    (uniqSources env (get_or_create_game st0 name).1.name)
                    (update_game_status (get_or_create_game st0 name).2
                      (get_or_create_game st0 name).1.id "researching")).2
                  (get_or_create_game st0 name).1.id d
              | none => (saveAll env (get_or_create_game st0 name).1
                  (uniqSources env (get_or_create_game st0 name).1.name)
                  (update_game_status (get_or_create_game st0 name).2
                    (get_or_create_game st0 name).1.id "researching")).2)
            (get_or_create_game st0 name).1.id "ready" := by
      simp only [research]
      rw [if_neg hs]
    -- lookup after the "researching" status flip
    have h2 : get_game_by_name
        (update_game_status (get_or_create_game st0 name).2
          (get_or_create_game st0 name).1.id "researching") name
        = some (if (get_or_create_game st0 name).1.id
              = (get_or_create_game st0 name).1.id then
            { (get_or_create_game st0 name).1 with status := "researching" }
          else (get_or_create_game st0 name).1) := by
      rw [get_game_by_name_update_status, h1]
      rfl
    rw [if_pos rfl] at h2
    -- lookup after the source-saving loop (games untouched)
    have h3 : get_game_by_name
        (saveAll env (get_or_create_game st0 name).1
          (uniqSources env (get_or_create_game st0 name).1.name)
          (update_game_status (get_or_create_game st0 name).2
            (get_or_create_game st0 name).1.id "researching")).2 name
        = some { (get_or_create_game st0 name).1 with status := "researching" } := by
      have hgames := (saveAll_spec env (get_or_create_game st0 name).1
          (uniqSources env (get_or_create_game st0 name).1.name)
          (update_game_status (get_or_create_game st0 name).2
            (get_or_create_game st0 name).1.id "researching")).2.1
      rw [get_game_by_name_eq_of_games _ _ hgames name]
      exact h2
    -- lookup after the optional description update
    have h4 : ∃ gD : GameRow,
        get_game_by_name
          (match env.describe (get_or_create_game st0 name).1.name with
            | some d => update_game_description
                (saveAll env (get_or_create_game st0 name).1
                  (uniqSources env (get_or_create_game st0 name).1.name)
                  (update_game_status (get_or_create_game st0 name).2
                    (get_or_create_game st0 name).1.id "researching")).2
                (get_or_create_game st0 name).1.id d
            | none => (saveAll env (get_or_create_game st0 name).1
                (uniqSources env (get_or_create_game st0 name).1.name)
                (update_game_status (get_or_create_game st0 name).2
                  (get_or_create_game st0 name).1.id "researching")).2) name
          = some gD ∧
        gD.id = (get_or_create_game st0 name).1.id ∧
        gD.name = (get_or_create_game st0 name).1.name := by
      cases env.describe (get_or_create_game st0 name).1.name with
      | none => exact ⟨_, h3, rfl, rfl⟩
      | some d =>
        refine ⟨{ { (get_or_create_game st0 name).1 with
            status := "researching" } with description := some d },
          ?_, rfl, rfl⟩
        rw [get_game_by_name_update_description, h3, Option.map_some',
          if_pos rfl]
    obtain ⟨gD, hgD, hid, hnm⟩ := h4
    refine ⟨{ gD with status := "ready" }, ?_, Or.inl rfl, hnm⟩
    rw [hre, get_game_by_name_update_status, hgD, Option.map_some', if_pos hid]

/-- C4: a second `research` call with the same topic name performs no
discovery or fetching (its fetched-URL list is empty), returns the
"already have this" reply, and leaves the database state untouched — no
duplicate topic row, no duplicate source rows.  Moreover
`get_or_create_game` on a name whose case-insensitive match already
exists returns the existing row and does not change the database. -/
theorem research_idempotent (env env2 : Env) (st0 : DBState) (name : String)
    (hwf : ∀ g ∈ st0.games, g.id < st0.nextGameId) :
    research env2 (research env st0 name).st name
      = ⟨.alreadyHave (get_or_create_game st0 name).1.name, [],
          (research env st0 name).st⟩ ∧
    (∀ g : GameRow, get_game_by_name st0 name = some g →
      get_or_create_game st0 name = (g, st0)) := by
  constructor
  · obtain ⟨gR, hfind, hstat, hname⟩ := research_find env st0 name hwf
    set stR := (research env st0 name).st with hstR
    have hgoc2 : get_or_create_game stR name = (gR, stR) := by
      simp only [get_or_create_game, hfind]
    simp only [research, hgoc2]
    rw [if_pos hstat, hname]
  · intro g hg
    simp only [get_or_create_game, hg]

/-- C4 witness: a database whose "Catan" row is ready, queried with a
different capitalization; plus the two-calls-in-sequence scenario from an
empty database. -/
theorem research_idempotent_witness :
    (∀ g ∈ (⟨[⟨1, "Catan", none, "ready", "storage/games/1"⟩], [], 2, 1⟩
        : DBState).games, g.id < 2) ∧
    (research env0 (research env0
        ⟨[⟨1, "Catan", none, "ready", "storage/games/1"⟩], [], 2, 1⟩
        "CATAN").st "CATAN"
      = ⟨.alreadyHave (get_or_create_game
            ⟨[⟨1, "Catan", none, "ready", "storage/games/1"⟩], [], 2, 1⟩
            "CATAN").1.name, [],
          (research env0
            ⟨[⟨1, "Catan", none, "ready", "storage/games/1"⟩], [], 2, 1⟩
            "CATAN").st⟩ ∧
      (∀ g : GameRow, get_game_by_name
          ⟨[⟨1, "Catan", none, "ready", "storage/games/1"⟩], [], 2, 1⟩
          "CATAN" = some g →
        get_or_create_game
            ⟨[⟨1, "Catan", none, "ready", "storage/games/1"⟩], [], 2, 1⟩
            "CATAN"
          = (g, ⟨[⟨1, "Catan", none, "ready", "storage/games/1"⟩], [], 2, 1⟩))) :=
  ⟨by decide,
    research_idempotent env0 env0
      ⟨[⟨1, "Catan", none, "ready", "storage/games/1"⟩], [], 2, 1⟩
      "CATAN" (by decide)⟩

end Otter
